import Mathlib

set_option maxRecDepth 8000

/-!
Shallow embedding of the plotting library (plotting.py): the
input-normalization layer (class PlottingInput), the subplot-grid planner
(function create subplots if needed) and the per-plot subplot-index
loops of plot_timeheight, plot_timehistory_at_height and plot_profile.

Modelling conventions:
* field values are integers (only their ordering matters for the verified
  properties; floating point NaN semantics of an all-empty column is out of
  the model and is marked by an explicit error value that no theorem relies
  on);
* a pandas DataFrame is a record of its time index, its height column and
  its named field columns;
* Python dictionaries are association lists in insertion order;
* raising an exception is returning Except.error with the message text of
  the corresponding assert or the exception class name;
* the actual drawing calls (pcolormesh, plot, colorbar, legend, axis
  mark-up) are outside the model: the loops record, for every combination
  that the code would draw, which dataset index, field index, secondary
  index and flattened subplot index it draws at.
-/

/-- A tabular dataset: a time-indexed table with a height column and named
field columns. -/
structure DataFrame where
  times : List Int
  heightcol : List Int
  columns : List (String × List Int)
  deriving DecidableEq, Repr

/-- `field in df.columns` -/
def hasField (df : DataFrame) (f : String) : Bool :=
  df.columns.any (fun p => p.1 == f)

/-- `df[field]`: the values of a column, none when the column is absent
(pandas raises KeyError at use sites). -/
def colValues (df : DataFrame) (f : String) : Option (List Int) :=
  (df.columns.find? (fun p => p.1 == f)).map (fun p => p.2)

/-- The `datasets` argument: a bare DataFrame or a name-to-table mapping. -/
inductive DatasetsArg where
  | single (df : DataFrame)
  | dict (m : List (String × DataFrame))
  deriving DecidableEq, Repr

/-- The `fields` argument: a bare field name or a list of field names. -/
inductive FieldsArg where
  | str (s : String)
  | list (l : List String)
  deriving DecidableEq, Repr

/-- A `heights` or `times` argument: a bare scalar or a list. -/
inductive ScalarOrList where
  | scalar (x : Int)
  | list (l : List Int)
  deriving DecidableEq, Repr

/-- The `fieldlimits` argument: a bare (min, max) pair or a per-field
mapping. -/
inductive FieldlimitsArg where
  | bare (lim : Int × Int)
  | dict (m : List (String × (Int × Int)))
  deriving DecidableEq, Repr

/-- The `fieldlabels` argument: a bare label or a per-field mapping. -/
inductive FieldlabelsArg where
  | bare (lab : String)
  | dict (m : List (String × String))
  deriving DecidableEq, Repr

/-- The `colorschemes` argument: a bare colormap name or a per-field
mapping. -/
inductive ColorschemesArg where
  | bare (s : String)
  | dict (m : List (String × String))
  deriving DecidableEq, Repr

/-- The raw keyword-argument surface of the PlottingInput constructor; a
`none` models an attribute that was never set (AttributeError on access). -/
structure PlotArgsIn where
  datasets : DatasetsArg
  fields : FieldsArg
  heights : Option ScalarOrList
  times : Option ScalarOrList
  fieldlimits : Option FieldlimitsArg
  fieldlabels : Option FieldlabelsArg
  colorschemes : Option ColorschemesArg
  fieldorder : Option String
  deriving DecidableEq, Repr

/-- The canonical record held by a PlottingInput object after
check consistency ran: exactly the attributes the object carries. -/
structure PlottingInput where
  datasets : List (String × DataFrame)
  fields : List String
  heights : Option (List Int)
  times : Option (List Int)
  fieldlimits : List (String × (Int × Int))
  fieldlabels : List (String × String)
  colorschemes : Option ColorschemesArg
  cmap : List (String × String)
  fieldorder : Option String
  deriving DecidableEq, Repr

/-- A bare DataFrame is wrapped under the generic key Dataset. -/
def normDatasets : DatasetsArg → List (String × DataFrame)
  | .single df => [("Dataset", df)]
  | .dict m => m

/-- A bare field name becomes a one-element list. -/
def normFields : FieldsArg → List String
  | .str s => [s]
  | .list l => l

/-- A bare scalar height or time becomes a one-element list. -/
def normScalarOrList : ScalarOrList → List Int
  | .scalar x => [x]
  | .list l => l

/-- The assert that every dataset contains at least one requested field;
the first offending dataset is named in the error. -/
def checkDatasets (fields : List String) : List (String × DataFrame) → Except String Unit
  | [] => .ok ()
  | (name, df) :: rest =>
    if fields.any (fun f => hasField df f) then checkDatasets fields rest
    else .error ("Dataset " ++ name ++ " does not contain any of the requested fields")

/-- Normalization of the fieldlimits attribute: absent becomes the empty
mapping; a bare pair requires exactly one selected field. -/
def normFieldlimits (fields : List String) : Option FieldlimitsArg → Except String (List (String × (Int × Int)))
  | none => .ok []
  | some (.dict m) => .ok m
  | some (.bare lim) =>
    match fields with
    | [f] => .ok [(f, lim)]
    | _ => .error "Unclear to what field fieldlimits corresponds"

/-- Normalization of the fieldlabels attribute: absent becomes the empty
mapping; a bare label requires exactly one selected field. -/
def normFieldlabels (fields : List String) : Option FieldlabelsArg → Except String (List (String × String))
  | none => .ok []
  | some (.dict m) => .ok m
  | some (.bare lab) =>
    match fields with
    | [f] => .ok [(f, lab)]
    | _ => .error "Unclear to what field fieldlabels corresponds"

/-- The dict branch of the colorschemes normalization: walk the selected
fields, append a viridis entry for each field missing from the mapping,
and resolve each field name to its colormap (a colormap handle is
identified by its name in the model). Returns the updated mapping and the
cmap dictionary in field order. -/
def fillColorschemes : List String → List (String × String) → List (String × String) × List (String × String)
  | [], m => (m, [])
  | f :: fs, m =>
    let m1 := if m.any (fun p => p.1 == f) then m else m ++ [(f, "viridis")]
    let c := match m1.find? (fun p => p.1 == f) with
      | some p => p.2
      | none => "viridis"
    let r := fillColorschemes fs m1
    (r.1, (f, c) :: r.2)

/-- Normalization of the colorschemes attribute. A bare colormap name
requires exactly one selected field and resolves into cmap while the
colorschemes attribute itself keeps the bare string; a mapping is filled
with viridis defaults. Returns the resulting colorschemes attribute and
the cmap mapping. -/
def normColorschemes (fields : List String) : Option ColorschemesArg → Except String (Option ColorschemesArg × List (String × String))
  | none => .ok (none, [])
  | some (.bare s) =>
    match fields with
    | [f] => .ok (some (.bare s), [(f, s)])
    | _ => .error "Unclear to what field colorschemes corresponds"
  | some (.dict m) =>
    let r := fillColorschemes fields m
    .ok (some (.dict r.1), r.2)

/-- The fieldorder attribute, when present, must be C or F. -/
def checkFieldorder : Option String → Except String (Option String)
  | none => .ok none
  | some s =>
    if s == "C" || s == "F" then .ok (some s)
    else .error ("Error: fieldorder " ++ s ++ " not recognized, must be either C or F")

/-- PlottingInput check consistency, in source order: wrap datasets,
wrap fields, coerce heights and times, check every dataset has a requested
field, then normalize fieldlimits, fieldlabels, colorschemes and validate
fieldorder. -/
def check_consistency (a : PlotArgsIn) : Except String PlottingInput := do
  let datasets := normDatasets a.datasets
  let fields := normFields a.fields
  let heights := a.heights.map normScalarOrList
  let times := a.times.map normScalarOrList
  let _ ← checkDatasets fields datasets
  let fieldlimits ← normFieldlimits fields a.fieldlimits
  let fieldlabels ← normFieldlabels fields a.fieldlabels
  let cs ← normColorschemes fields a.colorschemes
  let fieldorder ← checkFieldorder a.fieldorder
  .ok { datasets := datasets, fields := fields, heights := heights, times := times,
        fieldlimits := fieldlimits, fieldlabels := fieldlabels,
        colorschemes := cs.1, cmap := cs.2, fieldorder := fieldorder }

/-- `df[field].min()`: KeyError when the column is absent; the NaN value of
an empty column is outside the model and marked by an error no theorem
relies on. -/
def dfFieldMin (df : DataFrame) (f : String) : Except String Int :=
  match colValues df f with
  | none => .error ("KeyError: " ++ f)
  | some vs =>
    match vs.min? with
    | some m => .ok m
    | none => .error ("NaN: empty column " ++ f)

/-- `df[field].max()`, as dfFieldMin. -/
def dfFieldMax (df : DataFrame) (f : String) : Except String Int :=
  match colValues df f with
  | none => .error ("KeyError: " ++ f)
  | some vs =>
    match vs.max? with
    | some m => .ok m
    | none => .error ("NaN: empty column " ++ f)

/-- Left-to-right effectful map, as a Python list comprehension: the first
raised exception aborts the whole list. -/
def mapExcept {α β : Type} (g : α → Except String β) : List α → Except String (List β)
  | [] => .ok []
  | x :: xs => do
    let y ← g x
    let ys ← mapExcept g xs
    .ok (y :: ys)

/-- The per-dataset column minima of a field, over the datasets that
contain the field with a nonempty column. -/
def pooledMins (ds : List (String × DataFrame)) (f : String) : List Int :=
  ds.filterMap (fun p => (colValues p.2 f).bind List.min?)

/-- The per-dataset column maxima of a field, over the datasets that
contain the field with a nonempty column. -/
def pooledMaxs (ds : List (String × DataFrame)) (f : String) : List Int :=
  ds.filterMap (fun p => (colValues p.2 f).bind List.max?)

/-- Dictionary lookup in an association list, first match. -/
def lookupLimit (fl : List (String × (Int × Int))) (f : String) : Option (Int × Int) :=
  (fl.find? (fun p => p.1 == f)).map (fun p => p.2)

/-- The loop of set missing fieldlimits: for every requested field without
an explicit range, take min and max of the per-dataset column minima and
maxima over all datasets (KeyError if any dataset lacks the column,
ValueError if there are no datasets at all). -/
def fillFieldlimits (datasets : List (String × DataFrame)) :
    List String → List (String × (Int × Int)) → Except String (List (String × (Int × Int)))
  | [], fl => .ok fl
  | f :: fs, fl =>
    if fl.any (fun p => p.1 == f) then fillFieldlimits datasets fs fl
    else do
      let mins ← mapExcept (fun p => dfFieldMin p.2 f) datasets
      let maxs ← mapExcept (fun p => dfFieldMax p.2 f) datasets
      match mins.min?, maxs.max? with
      | some lo, some hi => fillFieldlimits datasets fs (fl ++ [(f, (lo, hi))])
      | _, _ => .error "ValueError: min of empty sequence"

/-- PlottingInput set missing fieldlimits. -/
def set_missing_fieldlimits (r : PlottingInput) : Except String PlottingInput := do
  let fl ← fillFieldlimits r.datasets r.fields r.fieldlimits
  .ok { r with fieldlimits := fl }

/-- PlottingInput get available fields: the requested fields present as
columns of the given dataset. -/
def get_available_fields (r : PlottingInput) (df : DataFrame) : List String :=
  r.fields.filter (fun f => hasField df f)

/-- Shape of a caller-supplied axes argument (after np.asarray). -/
inductive AxShape where
  | oneD (n : Nat)
  | twoD (r c : Nat)
  deriving DecidableEq, Repr

/-- np.asarray(ax).size -/
def axSize : AxShape → Nat
  | .oneD n => n
  | .twoD r c => r * c

/-- The grid the planner settles on: nrows, ncols and whether the figure
was freshly created (ax was not supplied). -/
structure GridInfo where
  nrows : Nat
  ncols : Nat
  created : Bool
  deriving DecidableEq, Repr

/-- The subplot-grid planner. With ax absent and ncols given, ncols must
evenly divide ntotal (ZeroDivisionError when ncols is zero, as in Python);
with ncols absent the default column count is used, swapping rows and
columns for column-major field order and again to avoid a single column.
With ax supplied, its size must equal ntotal and a one-dimensional ax is
read as a single column. -/
def create_subplots_if_needed (ntotal : Nat) (ncols : Option Nat)
    (default_ncols : Nat) (fieldorder : String) (avoid_single_column : Bool)
    (ax : Option AxShape) : Except String GridInfo :=
  match ax with
  | none =>
    match ncols with
    | some c =>
      if c = 0 then .error "ZeroDivisionError"
      else if ntotal % c = 0 then .ok ⟨ntotal / c, c, true⟩
      else .error "Error: Specified number of columns is not a true divisor of total number of subplots"
    | none =>
      if default_ncols = 0 then .error "ZeroDivisionError"
      else
        let c := default_ncols
        let r := ntotal / c
        let p := if fieldorder == "F" then (c, r) else (r, c)
        let q := if avoid_single_column && p.2 == 1 then (p.2, p.1) else p
        .ok ⟨q.1, q.2, true⟩
  | some shape =>
    if axSize shape = ntotal then
      match shape with
      | .twoD r c => .ok ⟨r, c, false⟩
      | .oneD n => .ok ⟨n, 1, false⟩
    else .error "Specified axes does not have the right size"

/-- One draw call the rendering loops would issue: dataset index and name,
field index and name (indices into the iterated sequences), secondary
(height or time) index, and the flattened subplot index axi it targets. -/
structure PlotEntry where
  dsIdx : Nat
  dsName : String
  fieldIdx : Nat
  field : String
  secIdx : Nat
  axi : Nat
  deriving DecidableEq, Repr

/-- The console diagnostic printed when a requested field is missing from a
dataset. -/
def fieldWarning (f dfname : String) : String :=
  "Warning: field " ++ f ++ " not available in dataset " ++ dfname

/-- Inner field loop of plot_timeheight over the enumerated raw fields
argument: a field not in the available fields of the dataset is skipped
with a warning, otherwise it is drawn at axi = i * nfields + j. -/
def timeheightFieldLoop (nfields i : Nat) (dfname : String)
    (avail : List String) : List (Nat × String) → List PlotEntry × List String
  | [] => ([], [])
  | (j, f) :: rest =>
    if avail.contains f then
      let r := timeheightFieldLoop nfields i dfname avail rest
      (⟨i, dfname, j, f, 0, i * nfields + j⟩ :: r.1, r.2)
    else
      let r := timeheightFieldLoop nfields i dfname avail rest
      (r.1, fieldWarning f dfname :: r.2)

/-- Outer dataset loop of plot_timeheight over the enumerated datasets. -/
def timeheightDatasetLoop (args : PlottingInput) (rawFields : List String) :
    List (Nat × (String × DataFrame)) → List PlotEntry × List String
  | [] => ([], [])
  | (i, p) :: rest =>
    let av := get_available_fields args p.2
    let x := timeheightFieldLoop args.fields.length i p.1 av rawFields.enum
    let y := timeheightDatasetLoop args rawFields rest
    (x.1 ++ y.1, x.2 ++ y.2)

/-- The raw fields argument as plot_timeheight iterates it at draw time:
iterating a Python string yields its characters as length-one strings. -/
def rawFieldList : FieldsArg → List String
  | .str s => s.toList.map (fun ch => String.singleton ch)
  | .list l => l

/-- Observable outcome of a plot_timeheight call. -/
structure TimeheightResult where
  args : PlottingInput
  nfields : Nat
  ndatasets : Nat
  ntotal : Nat
  grid : GridInfo
  entries : List PlotEntry
  warnings : List String
  deriving DecidableEq, Repr

/-- plot_timeheight: normalize and validate the inputs, fill missing
fieldlimits, plan the subplot grid (ncols is always passed explicitly,
defaulting to one), then run the rendering loop over the enumerated
datasets and the enumerated RAW fields argument. -/
def plot_timeheight (datasets : DatasetsArg) (fields : FieldsArg)
    (colorschemes : ColorschemesArg) (fieldlimits : FieldlimitsArg)
    (fieldlabels : FieldlabelsArg) (ncols : Nat) (ax : Option AxShape) :
    Except String TimeheightResult := do
  let args0 ← check_consistency
    ⟨datasets, fields, none, none, some fieldlimits, some fieldlabels, some colorschemes, none⟩
  let args ← set_missing_fieldlimits args0
  let nfields := args.fields.length
  let ndatasets := args.datasets.length
  let ntotal := nfields * ndatasets
  let grid ← create_subplots_if_needed ntotal (some ncols) 1 "C" false ax
  let r := timeheightDatasetLoop args (rawFieldList fields) args.datasets.enum
  .ok ⟨args, nfields, ndatasets, ntotal, grid, r.1, r.2⟩

/-- The default for stack_by_datasets when the caller does not specify it:
stack by dataset exactly when the secondary-axis count is not larger than
one. -/
def stack_by_datasets_default (sbd : Option Bool) (nsecondary : Nat) : Bool :=
  match sbd with
  | some b => b
  | none => if nsecondary > 1 then false else true

/-- Innermost height loop of plot_timehistory_at_height: every height k is
drawn at axi = k * nfields + j when stacking by datasets, else at
axi = i * nfields + j. -/
def timehistoryHeightLoop (stack : Bool) (nfields i : Nat) (dfname : String)
    (j : Nat) (f : String) : List (Nat × Int) → List PlotEntry
  | [] => []
  | (k, _) :: rest =>
    let axi := if stack then k * nfields + j else i * nfields + j
    ⟨i, dfname, j, f, k, axi⟩ :: timehistoryHeightLoop stack nfields i dfname j f rest

/-- Field loop of plot_timehistory_at_height over the enumerated
normalized fields: unavailable fields are skipped with a warning. -/
def timehistoryFieldLoop (stack : Bool) (nfields i : Nat) (dfname : String)
    (avail : List String) (heights : List Int) :
    List (Nat × String) → List PlotEntry × List String
  | [] => ([], [])
  | (j, f) :: rest =>
    if avail.contains f then
      let r := timehistoryFieldLoop stack nfields i dfname avail heights rest
      (timehistoryHeightLoop stack nfields i dfname j f heights.enum ++ r.1, r.2)
    else
      let r := timehistoryFieldLoop stack nfields i dfname avail heights rest
      (r.1, fieldWarning f dfname :: r.2)

/-- Dataset loop of plot_timehistory_at_height. -/
def timehistoryDatasetLoop (args : PlottingInput) (stack : Bool) (heights : List Int) :
    List (Nat × (String × DataFrame)) → List PlotEntry × List String
  | [] => ([], [])
  | (i, p) :: rest =>
    let av := get_available_fields args p.2
    let x := timehistoryFieldLoop stack args.fields.length i p.1 av heights args.fields.enum
    let y := timehistoryDatasetLoop args stack heights rest
    (x.1 ++ y.1, x.2 ++ y.2)

/-- Observable outcome of a plot_timehistory_at_height call. -/
structure TimehistoryResult where
  args : PlottingInput
  stackByDatasets : Bool
  nfields : Nat
  nheights : Nat
  ndatasets : Nat
  ntotal : Nat
  grid : GridInfo
  entries : List PlotEntry
  warnings : List String
  deriving DecidableEq, Repr

/-- plot_timehistory_at_height: normalize and validate, resolve the
stacking default from the number of heights, compute the subplot total,
plan the grid (ncols always passed, defaulting to one) and run the
rendering loops. -/
def plot_timehistory_at_height (datasets : DatasetsArg) (fields : FieldsArg)
    (heights : ScalarOrList) (fieldlimits : FieldlimitsArg)
    (fieldlabels : FieldlabelsArg) (stack_by_datasets : Option Bool)
    (ncols : Nat) (ax : Option AxShape) : Except String TimehistoryResult := do
  let args ← check_consistency
    ⟨datasets, fields, some heights, none, some fieldlimits, some fieldlabels, none, none⟩
  let nfields := args.fields.length
  let nheights := (args.heights.getD []).length
  let ndatasets := args.datasets.length
  let stack := stack_by_datasets_default stack_by_datasets nheights
  let ntotal := if stack then nfields * nheights else nfields * ndatasets
  let grid ← create_subplots_if_needed ntotal (some ncols) 1 "C" false ax
  let r := timehistoryDatasetLoop args stack (args.heights.getD []) args.datasets.enum
  .ok ⟨args, stack, nfields, nheights, ndatasets, ntotal, grid, r.1, r.2⟩

/-- Innermost time loop of plot_profile: the axi of time k depends on the
stacking mode and on the fieldorder; extracting the profile with
df_pivot at a time absent from the dataset index raises KeyError. -/
def profileTimeLoop (stack : Bool) (fo : Option String)
    (nfields ntimes ndatasets i : Nat) (dfname : String) (dftimes : List Int)
    (j : Nat) (f : String) : List (Nat × Int) → Except String (List PlotEntry)
  | [] => .ok []
  | (k, t) :: rest => do
    let axi :=
      if stack then
        if fo == some "C" then j * ntimes + k else k * nfields + j
      else
        if fo == some "C" then j * ndatasets + i else i * nfields + j
    if dftimes.contains t then
      let es ← profileTimeLoop stack fo nfields ntimes ndatasets i dfname dftimes j f rest
      .ok (⟨i, dfname, j, f, k, axi⟩ :: es)
    else .error "KeyError: time not in index"

/-- Field loop of plot_profile over the enumerated normalized fields. -/
def profileFieldLoop (stack : Bool) (fo : Option String)
    (nfields ntimes ndatasets i : Nat) (dfname : String) (dftimes : List Int)
    (avail : List String) (times : List Int) :
    List (Nat × String) → Except String (List PlotEntry × List String)
  | [] => .ok ([], [])
  | (j, f) :: rest =>
    if avail.contains f then do
      let es ← profileTimeLoop stack fo nfields ntimes ndatasets i dfname dftimes j f times.enum
      let r ← profileFieldLoop stack fo nfields ntimes ndatasets i dfname dftimes avail times rest
      .ok (es ++ r.1, r.2)
    else do
      let r ← profileFieldLoop stack fo nfields ntimes ndatasets i dfname dftimes avail times rest
      .ok (r.1, fieldWarning f dfname :: r.2)

/-- Dataset loop of plot_profile. -/
def profileDatasetLoop (args : PlottingInput) (stack : Bool) (times : List Int) :
    List (Nat × (String × DataFrame)) → Except String (List PlotEntry × List String)
  | [] => .ok ([], [])
  | (i, p) :: rest => do
    let av := get_available_fields args p.2
    let x ← profileFieldLoop stack args.fieldorder args.fields.length times.length
      args.datasets.length i p.1 p.2.times av times args.fields.enum
    let y ← profileDatasetLoop args stack times rest
    .ok (x.1 ++ y.1, x.2 ++ y.2)

/-- Observable outcome of a plot_profile call. -/
structure ProfileResult where
  args : PlottingInput
  stackByDatasets : Bool
  nfields : Nat
  ntimes : Nat
  ndatasets : Nat
  ntotal : Nat
  grid : GridInfo
  entries : List PlotEntry
  warnings : List String
  deriving DecidableEq, Repr

/-- plot_profile: normalize and validate (with fieldorder), resolve the
stacking default from the number of times, compute the subplot total, plan
the grid with default ncols = int(ntotal / nfields) (a ZeroDivisionError
when there are no fields), avoiding a single column, then run the
rendering loops. -/
def plot_profile (datasets : DatasetsArg) (fields : FieldsArg)
    (times : ScalarOrList) (fieldlimits : FieldlimitsArg)
    (fieldlabels : FieldlabelsArg) (stack_by_datasets : Option Bool)
    (fieldorder : String) (ncols : Option Nat) (ax : Option AxShape) :
    Except String ProfileResult := do
  let args ← check_consistency
    ⟨datasets, fields, none, some times, some fieldlimits, some fieldlabels, none, some fieldorder⟩
  let nfields := args.fields.length
  let ntimes := (args.times.getD []).length
  let ndatasets := args.datasets.length
  let stack := stack_by_datasets_default stack_by_datasets ntimes
  let ntotal := if stack then nfields * ntimes else nfields * ndatasets
  if nfields = 0 then .error "ZeroDivisionError"
  else do
    let grid ← create_subplots_if_needed ntotal ncols (ntotal / nfields)
      (args.fieldorder.getD "C") true ax
    let r ← profileDatasetLoop args stack (args.times.getD []) args.datasets.enum
    .ok ⟨args, stack, nfields, ntimes, ndatasets, ntotal, grid, r.1, r.2⟩

/-- Extract the payload of an ok result, with an explicit fallback. -/
def getOk {α : Type} (d : α) (e : Except String α) : α :=
  match e with
  | .ok r => r
  | .error _ => d

/-- Fallback records for extracting ok results at concrete inputs. -/
def emptyPlottingInput : PlottingInput :=
  ⟨[], [], none, none, [], [], none, [], none⟩

def emptyTimeheightResult : TimeheightResult :=
  ⟨emptyPlottingInput, 0, 0, 0, ⟨0, 0, false⟩, [], []⟩

def emptyTimehistoryResult : TimehistoryResult :=
  ⟨emptyPlottingInput, false, 0, 0, 0, 0, ⟨0, 0, false⟩, [], []⟩

def emptyProfileResult : ProfileResult :=
  ⟨emptyPlottingInput, false, 0, 0, 0, 0, ⟨0, 0, false⟩, [], []⟩

/-- Concrete datasets used in witnesses and counterexamples. -/
def dfA : DataFrame := ⟨[0], [10], [("wspd", [1]), ("wdir", [5]), ("height", [10])]⟩

def dfB : DataFrame := ⟨[0], [10], [("wdir", [2]), ("height", [10])]⟩

def dfAB : DataFrame :=
  ⟨[0, 1], [10, 10], [("wspd", [1, 3]), ("wdir", [5, 7]), ("height", [10, 10])]⟩

theorem ebind_ok {α β : Type} (a : α) (f : α → Except String β) :
    (Except.ok a >>= f) = f a := rfl

theorem ebind_err {α β : Type} (msg : String) (f : α → Except String β) :
    ((Except.error msg : Except String α) >>= f) = .error msg := rfl

theorem bind_ok_inv {α β : Type} {e : Except String α} {f : α → Except String β} {b : β}
    (h : (e >>= f) = .ok b) : ∃ a, e = .ok a ∧ f a = .ok b := by
  cases e with
  | error m => rw [ebind_err] at h; exact absurd h (by simp)
  | ok a => exact ⟨a, rfl, h⟩

/-- C2: in grid construction without supplied axes, an explicitly given
column count that evenly divides the total yields exactly
rows = total / columns, and a column count that does not divide the total
makes construction fail with the descriptive divisor error. -/
theorem claim_c2 (ntotal c dn : Nat) (fo : String) (av : Bool) (hc : 0 < c) :
    (ntotal % c = 0 →
      create_subplots_if_needed ntotal (some c) dn fo av none =
        .ok ⟨ntotal / c, c, true⟩) ∧
    (ntotal % c ≠ 0 →
      create_subplots_if_needed ntotal (some c) dn fo av none =
        .error "Error: Specified number of columns is not a true divisor of total number of subplots") := by
  have hc0 : ¬ c = 0 := by omega
  constructor
  · intro h
    simp [create_subplots_if_needed, hc0, h]
  · intro h
    simp [create_subplots_if_needed, hc0, h]

/-- C2 witness: columns 3 divides 6 giving 2 rows; columns 3 does not
divide 7 and fails. -/
theorem claim_c2_witness :
    (0 < 3 ∧ (6 : Nat) % 3 = 0 ∧
      create_subplots_if_needed 6 (some 3) 1 "C" false none = .ok ⟨2, 3, true⟩) ∧
    ((7 : Nat) % 3 ≠ 0 ∧
      create_subplots_if_needed 7 (some 3) 1 "C" false none =
        .error "Error: Specified number of columns is not a true divisor of total number of subplots") :=
  ⟨⟨by decide, by decide, (claim_c2 6 3 1 "C" false (by decide)).1 (by decide)⟩,
   ⟨by decide, (claim_c2 7 3 1 "C" false (by decide)).2 (by decide)⟩⟩

/-- C9: with a caller-supplied axes grid, the call fails when the grid
size differs from the expected total; otherwise a two-dimensional grid
keeps its shape and a one-dimensional grid is read as a single column
(rows = size, columns = 1), never as a single row. -/
theorem claim_c9 (ntotal dn : Nat) (nc : Option Nat) (fo : String) (av : Bool)
    (shape : AxShape) :
    (axSize shape ≠ ntotal →
      create_subplots_if_needed ntotal nc dn fo av (some shape) =
        .error "Specified axes does not have the right size") ∧
    (∀ r c, shape = .twoD r c → r * c = ntotal →
      create_subplots_if_needed ntotal nc dn fo av (some shape) = .ok ⟨r, c, false⟩) ∧
    (∀ n, shape = .oneD n → n = ntotal →
      create_subplots_if_needed ntotal nc dn fo av (some shape) = .ok ⟨n, 1, false⟩) := by
  refine ⟨?_, ?_, ?_⟩
  · intro h
    simp [create_subplots_if_needed, h]
  · intro r c hs h
    subst hs
    simp [create_subplots_if_needed, axSize, h]
  · intro n hs h
    subst hs
    simp [create_subplots_if_needed, axSize, h]

/-- C9 witness: a 3-element grid for total 4 fails; a 2 by 2 grid for
total 4 keeps its shape; a flat 4-element grid for total 4 becomes 4 rows
and 1 column. -/
theorem claim_c9_witness :
    (axSize (.oneD 3) ≠ 4 ∧
      create_subplots_if_needed 4 none 1 "C" false (some (.oneD 3)) =
        .error "Specified axes does not have the right size") ∧
    create_subplots_if_needed 4 none 1 "C" false (some (.twoD 2 2)) = .ok ⟨2, 2, false⟩ ∧
    create_subplots_if_needed 4 none 1 "C" false (some (.oneD 4)) = .ok ⟨4, 1, false⟩ :=
  ⟨⟨by decide, (claim_c9 4 1 none "C" false (.oneD 3)).1 (by decide)⟩,
   (claim_c9 4 1 none "C" false (.twoD 2 2)).2.1 2 2 rfl (by decide),
   (claim_c9 4 1 none "C" false (.oneD 4)).2.2 4 rfl (by decide)⟩

/-- C3: when stack_by_datasets is not specified, the time-history and
profile plots stack by dataset exactly when the secondary-axis count
(heights, resp. times) is one, with total subplots nfields times the
secondary count, and stack by secondary value when that count exceeds
one, with total subplots nfields times ndatasets, regardless of the
number of datasets. -/
theorem claim_c3 :
    (∀ d f h fl fb ncols ax r,
      plot_timehistory_at_height d f h fl fb none ncols ax = .ok r →
        (r.nheights = 1 → r.stackByDatasets = true ∧ r.ntotal = r.nfields * r.nheights) ∧
        (1 < r.nheights → r.stackByDatasets = false ∧ r.ntotal = r.nfields * r.ndatasets)) ∧
    (∀ d f t fl fb fo ncols ax r,
      plot_profile d f t fl fb none fo ncols ax = .ok r →
        (r.ntimes = 1 → r.stackByDatasets = true ∧ r.ntotal = r.nfields * r.ntimes) ∧
        (1 < r.ntimes → r.stackByDatasets = false ∧ r.ntotal = r.nfields * r.ndatasets)) := by
  constructor
  · intro d f h fl fb ncols ax r hok
    unfold plot_timehistory_at_height at hok
    obtain ⟨args, hcc, hok⟩ := bind_ok_inv hok
    obtain ⟨grid, hgr, hok⟩ := bind_ok_inv hok
    simp only [pure, Except.pure, Except.ok.injEq] at hok
    subst hok
    constructor
    · intro h1
      simp only at h1
      exact ⟨by simp only [stack_by_datasets_default, h1]; rfl,
             by simp only [stack_by_datasets_default, h1]; rfl⟩
    · intro h1
      simp only at h1
      exact ⟨by simp only [stack_by_datasets_default, if_pos h1],
             by simp only [stack_by_datasets_default, if_pos h1]; rfl⟩
  · intro d f t fl fb fo ncols ax r hok
    unfold plot_profile at hok
    obtain ⟨args, hcc, hok⟩ := bind_ok_inv hok
    by_cases hn : args.fields.length = 0
    · rw [if_pos hn] at hok
      exact absurd hok (by simp)
    · rw [if_neg hn] at hok
      obtain ⟨grid, hgr, hok⟩ := bind_ok_inv hok
      obtain ⟨lp, hlp, hok⟩ := bind_ok_inv hok
      simp only [pure, Except.pure, Except.ok.injEq] at hok
      subst hok
      constructor
      · intro h1
        simp only at h1
        exact ⟨by simp only [stack_by_datasets_default, h1]; rfl,
               by simp only [stack_by_datasets_default, h1]; rfl⟩
      · intro h1
        simp only at h1
        exact ⟨by simp only [stack_by_datasets_default, if_pos h1],
               by simp only [stack_by_datasets_default, if_pos h1]; rfl⟩

/-- C3 witness: one height gives stacking by dataset with
ntotal = nfields * nheights; two times give stacking by secondary value
with ntotal = nfields * ndatasets. -/
theorem claim_c3_witness :
    ((getOk emptyTimehistoryResult (plot_timehistory_at_height (.dict [("A", dfAB)])
        (.list ["wspd"]) (.scalar 90) (.dict []) (.dict []) none 1 none)).stackByDatasets = true ∧
     (getOk emptyTimehistoryResult (plot_timehistory_at_height (.dict [("A", dfAB)])
        (.list ["wspd"]) (.scalar 90) (.dict []) (.dict []) none 1 none)).ntotal =
       (getOk emptyTimehistoryResult (plot_timehistory_at_height (.dict [("A", dfAB)])
        (.list ["wspd"]) (.scalar 90) (.dict []) (.dict []) none 1 none)).nfields *
       (getOk emptyTimehistoryResult (plot_timehistory_at_height (.dict [("A", dfAB)])
        (.list ["wspd"]) (.scalar 90) (.dict []) (.dict []) none 1 none)).nheights) ∧
    ((getOk emptyProfileResult (plot_profile (.dict [("A", dfAB)]) (.list ["wspd"])
        (.list [0, 1]) (.dict []) (.dict []) none "C" none none)).stackByDatasets = false ∧
     (getOk emptyProfileResult (plot_profile (.dict [("A", dfAB)]) (.list ["wspd"])
        (.list [0, 1]) (.dict []) (.dict []) none "C" none none)).ntotal =
       (getOk emptyProfileResult (plot_profile (.dict [("A", dfAB)]) (.list ["wspd"])
        (.list [0, 1]) (.dict []) (.dict []) none "C" none none)).nfields *
       (getOk emptyProfileResult (plot_profile (.dict [("A", dfAB)]) (.list ["wspd"])
        (.list [0, 1]) (.dict []) (.dict []) none "C" none none)).ndatasets) :=
  ⟨(claim_c3.1 (.dict [("A", dfAB)]) (.list ["wspd"]) (.scalar 90) (.dict []) (.dict [])
      1 none _ rfl).1 rfl,
   (claim_c3.2 (.dict [("A", dfAB)]) (.list ["wspd"]) (.list [0, 1]) (.dict []) (.dict [])
      "C" none none _ rfl).2 (by decide)⟩

theorem checkDatasets_error (fields : List String) :
    ∀ (l : List (String × DataFrame)) (name : String) (df : DataFrame),
      (name, df) ∈ l → (∀ f ∈ fields, hasField df f = false) →
      ∃ name2 df2, (name2, df2) ∈ l ∧ (∀ f ∈ fields, hasField df2 f = false) ∧
        checkDatasets fields l =
          .error ("Dataset " ++ name2 ++ " does not contain any of the requested fields") := by
  intro l
  induction l with
  | nil => intro name df h; simp at h
  | cons p rest ih =>
    obtain ⟨pn, pd⟩ := p
    intro name df hmem hmiss
    by_cases hp : fields.any (fun f => hasField pd f) = true
    · have hrest : (name, df) ∈ rest := by
        rcases List.mem_cons.mp hmem with heq | h
        · exfalso
          obtain ⟨g, hg, hgf⟩ := List.any_eq_true.mp hp
          rw [Prod.mk.injEq] at heq
          rw [heq.2] at hmiss
          exact absurd hgf (by simp [hmiss g hg])
        · exact h
      obtain ⟨n2, d2, hm2, hc2, herr⟩ := ih name df hrest hmiss
      refine ⟨n2, d2, List.mem_cons_of_mem _ hm2, hc2, ?_⟩
      simpa [checkDatasets, hp] using herr
    · refine ⟨pn, pd, List.mem_cons_self _ _, ?_, ?_⟩
      · intro f hf
        have hall := List.any_eq_false.mp (Bool.eq_false_iff.mpr hp)
        exact hall f hf |> fun hh => by simpa using hh
      · simp [checkDatasets, hp]

theorem check_consistency_error (a : PlotArgsIn) (msg : String)
    (h : checkDatasets (normFields a.fields) (normDatasets a.datasets) = .error msg) :
    check_consistency a = .error msg := by
  unfold check_consistency
  simp only [h, ebind_err]

theorem plot_timeheight_of_check_error (datasets : DatasetsArg) (fields : FieldsArg)
    (cs : ColorschemesArg) (flim : FieldlimitsArg) (flab : FieldlabelsArg)
    (nc : Nat) (ax : Option AxShape) (msg : String)
    (h : check_consistency
      ⟨datasets, fields, none, none, some flim, some flab, some cs, none⟩ = .error msg) :
    plot_timeheight datasets fields cs flim flab nc ax = .error msg := by
  unfold plot_timeheight
  simp only [h, ebind_err]

/-- C6: input validation requires each dataset to contain at least one of
the requested fields as a column; when some dataset contains none of
them, normalization and hence the whole call fail, before any rendering
and grid planning, with a descriptive error naming an offending
dataset. -/
theorem claim_c6 (D : DatasetsArg) (F : FieldsArg) (name : String) (df : DataFrame)
    (hmem : (name, df) ∈ normDatasets D)
    (hmiss : ∀ f ∈ normFields F, hasField df f = false) :
    ∃ name2 df2, (name2, df2) ∈ normDatasets D ∧
      (∀ f ∈ normFields F, hasField df2 f = false) ∧
      (∀ H T FL FB CS FO, check_consistency ⟨D, F, H, T, FL, FB, CS, FO⟩ =
        .error ("Dataset " ++ name2 ++ " does not contain any of the requested fields")) ∧
      (∀ cs flim flab nc ax, plot_timeheight D F cs flim flab nc ax =
        .error ("Dataset " ++ name2 ++ " does not contain any of the requested fields")) := by
  obtain ⟨n2, d2, hm2, hc2, herr⟩ :=
    checkDatasets_error (normFields F) (normDatasets D) name df hmem hmiss
  refine ⟨n2, d2, hm2, hc2, ?_, ?_⟩
  · intro H T FL FB CS FO
    exact check_consistency_error ⟨D, F, H, T, FL, FB, CS, FO⟩ _ herr
  · intro cs flim flab nc ax
    exact plot_timeheight_of_check_error D F cs flim flab nc ax _
      (check_consistency_error _ _ herr)

/-- C6 witness: requesting only wspd while dataset B has only wdir makes
validation and the time-height call fail naming a dataset that lacks all
requested fields. -/
theorem claim_c6_witness :
    ∃ name2 df2, (name2, df2) ∈ normDatasets (.dict [("A", dfA), ("B", dfB)]) ∧
      (∀ f ∈ normFields (.list ["wspd"]), hasField df2 f = false) ∧
      (∀ H T FL FB CS FO,
        check_consistency ⟨.dict [("A", dfA), ("B", dfB)], .list ["wspd"], H, T, FL, FB, CS, FO⟩ =
          .error ("Dataset " ++ name2 ++ " does not contain any of the requested fields")) ∧
      (∀ cs flim flab nc ax,
        plot_timeheight (.dict [("A", dfA), ("B", dfB)]) (.list ["wspd"]) cs flim flab nc ax =
          .error ("Dataset " ++ name2 ++ " does not contain any of the requested fields")) :=
  claim_c6 (.dict [("A", dfA), ("B", dfB)]) (.list ["wspd"]) "B" dfB (by decide) (by decide)

theorem timeheightFieldLoop_axi (nfields i : Nat) (dfname : String) (avail : List String) :
    ∀ l, ∀ e ∈ (timeheightFieldLoop nfields i dfname avail l).1,
      e.dsIdx = i ∧ e.secIdx = 0 ∧ avail.contains e.field = true ∧
      (e.fieldIdx, e.field) ∈ l ∧ e.axi = e.dsIdx * nfields + e.fieldIdx := by
  intro l
  induction l with
  | nil => intro e he; simp [timeheightFieldLoop] at he
  | cons p rest ih =>
    obtain ⟨j, f⟩ := p
    intro e he
    by_cases hc : avail.contains f = true
    · simp only [timeheightFieldLoop, hc, if_true] at he
      rcases List.mem_cons.mp he with heq | h
      · subst heq; exact ⟨rfl, rfl, hc, List.mem_cons_self _ _, rfl⟩
      · obtain ⟨h1, h2, h3, h4, h5⟩ := ih e h
        exact ⟨h1, h2, h3, List.mem_cons_of_mem _ h4, h5⟩
    · simp only [timeheightFieldLoop, hc, if_false, Bool.false_eq_true] at he
      obtain ⟨h1, h2, h3, h4, h5⟩ := ih e he
      exact ⟨h1, h2, h3, List.mem_cons_of_mem _ h4, h5⟩

theorem timeheightFieldLoop_exists (nfields i : Nat) (dfname : String) (avail : List String) :
    ∀ l j f, (j, f) ∈ l → avail.contains f = true →
      ∃ e ∈ (timeheightFieldLoop nfields i dfname avail l).1,
        e.dsIdx = i ∧ e.fieldIdx = j ∧ e.field = f := by
  intro l
  induction l with
  | nil => intro j f h; simp at h
  | cons p rest ih =>
    obtain ⟨j0, f0⟩ := p
    intro j f hmem hc
    rcases List.mem_cons.mp hmem with heq | h
    · obtain ⟨hj, hf⟩ := Prod.mk.injEq .. ▸ heq
      subst hj; subst hf
      simp only [timeheightFieldLoop, hc, if_true]
      exact ⟨⟨i, dfname, j, f, 0, i * nfields + j⟩, List.mem_cons_self _ _, rfl, rfl, rfl⟩
    · obtain ⟨e, he, h1, h2, h3⟩ := ih j f h hc
      by_cases hc0 : avail.contains f0 = true
      · simp only [timeheightFieldLoop, hc0, if_true]
        exact ⟨e, List.mem_cons_of_mem _ he, h1, h2, h3⟩
      · simp only [timeheightFieldLoop, hc0, if_false, Bool.false_eq_true]
        exact ⟨e, he, h1, h2, h3⟩

theorem timeheightFieldLoop_warn (nfields i : Nat) (dfname : String) (avail : List String) :
    ∀ l j f, (j, f) ∈ l → avail.contains f = false →
      fieldWarning f dfname ∈ (timeheightFieldLoop nfields i dfname avail l).2 := by
  intro l
  induction l with
  | nil => intro j f h; simp at h
  | cons p rest ih =>
    obtain ⟨j0, f0⟩ := p
    intro j f hmem hc
    rcases List.mem_cons.mp hmem with heq | h
    · obtain ⟨hj, hf⟩ := Prod.mk.injEq .. ▸ heq
      subst hj; subst hf
      simp only [timeheightFieldLoop, hc, Bool.false_eq_true, if_false]
      exact List.mem_cons_self _ _
    · by_cases hc0 : avail.contains f0 = true
      · simp only [timeheightFieldLoop, hc0, if_true]
        exact ih j f h hc
      · simp only [timeheightFieldLoop, hc0, if_false, Bool.false_eq_true]
        exact List.mem_cons_of_mem _ (ih j f h hc)

theorem timeheightDatasetLoop_entries (args : PlottingInput) (raw : List String) :
    ∀ dl, ∀ e ∈ (timeheightDatasetLoop args raw dl).1,
      ∃ i p, (i, p) ∈ dl ∧
        e ∈ (timeheightFieldLoop args.fields.length i p.1 (get_available_fields args p.2) raw.enum).1 := by
  intro dl
  induction dl with
  | nil => intro e he; simp [timeheightDatasetLoop] at he
  | cons q rest ih =>
    obtain ⟨i0, p0⟩ := q
    intro e he
    simp only [timeheightDatasetLoop] at he
    rcases List.mem_append.mp he with h | h
    · exact ⟨i0, p0, List.mem_cons_self _ _, h⟩
    · obtain ⟨i1, p1, hm, hf⟩ := ih e h
      exact ⟨i1, p1, List.mem_cons_of_mem _ hm, hf⟩

theorem timeheightDatasetLoop_sub (args : PlottingInput) (raw : List String) :
    ∀ dl i p, (i, p) ∈ dl →
      (∀ e ∈ (timeheightFieldLoop args.fields.length i p.1 (get_available_fields args p.2) raw.enum).1,
        e ∈ (timeheightDatasetLoop args raw dl).1) ∧
      (∀ w ∈ (timeheightFieldLoop args.fields.length i p.1 (get_available_fields args p.2) raw.enum).2,
        w ∈ (timeheightDatasetLoop args raw dl).2) := by
  intro dl
  induction dl with
  | nil => intro i p h; simp at h
  | cons q rest ih =>
    obtain ⟨i0, p0⟩ := q
    intro i p hmem
    rcases List.mem_cons.mp hmem with heq | h
    · obtain ⟨hi, hp⟩ := Prod.mk.injEq .. ▸ heq
      subst hi; subst hp
      constructor
      · intro e he
        simp only [timeheightDatasetLoop]
        exact List.mem_append.mpr (Or.inl he)
      · intro w hw
        simp only [timeheightDatasetLoop]
        exact List.mem_append.mpr (Or.inl hw)
    · obtain ⟨h1, h2⟩ := ih i p h
      constructor
      · intro e he
        simp only [timeheightDatasetLoop]
        exact List.mem_append.mpr (Or.inr (h1 e he))
      · intro w hw
        simp only [timeheightDatasetLoop]
        exact List.mem_append.mpr (Or.inr (h2 w hw))

/-- C8: in the time-height contour plot, every drawn combination of
dataset index i and field index j targets subplot index
axi = i * nfields + j; in particular, for two datasets A and B with
fields wspd and wdir under default options, the total subplot count is 4,
the default single-column grid has shape (4, 1), and the combination
(dataset B, field wdir) targets subplot index 1 * 2 + 1 = 3. -/
theorem claim_c8 :
    (∀ d f cs flim flab nc ax r, plot_timeheight d f cs flim flab nc ax = .ok r →
      ∀ e ∈ r.entries, e.axi = e.dsIdx * r.nfields + e.fieldIdx) ∧
    (∃ r, plot_timeheight (.dict [("A", dfAB), ("B", dfAB)]) (.list ["wspd", "wdir"])
        (.dict []) (.dict []) (.dict []) 1 none = .ok r ∧
      r.ntotal = 4 ∧ r.grid = ⟨4, 1, true⟩ ∧
      (⟨1, "B", 1, "wdir", 0, 3⟩ : PlotEntry) ∈ r.entries ∧
      (3 : Nat) = 1 * 2 + 1) := by
  constructor
  · intro d f cs flim flab nc ax r hok
    unfold plot_timeheight at hok
    obtain ⟨args0, hcc, hok⟩ := bind_ok_inv hok
    obtain ⟨args, hsm, hok⟩ := bind_ok_inv hok
    obtain ⟨grid, hgr, hok⟩ := bind_ok_inv hok
    simp only [pure, Except.pure, Except.ok.injEq] at hok
    subst hok
    intro e he
    simp only at he ⊢
    obtain ⟨i, p, _, hf⟩ := timeheightDatasetLoop_entries args (rawFieldList f) _ e he
    obtain ⟨h1, h2, h3, h4, h5⟩ := timeheightFieldLoop_axi args.fields.length i p.1
      (get_available_fields args p.2) _ e hf
    exact h5
  · refine ⟨getOk emptyTimeheightResult (plot_timeheight (.dict [("A", dfAB), ("B", dfAB)])
      (.list ["wspd", "wdir"]) (.dict []) (.dict []) (.dict []) 1 none), rfl, rfl, rfl, ?_, rfl⟩
    decide

/-- C8 witness: the general index law applied to the concrete two-dataset
run at the entry for dataset B and field wdir. -/
theorem claim_c8_witness :
    (⟨1, "B", 1, "wdir", 0, 3⟩ : PlotEntry).axi =
      (⟨1, "B", 1, "wdir", 0, 3⟩ : PlotEntry).dsIdx *
        (getOk emptyTimeheightResult (plot_timeheight (.dict [("A", dfAB), ("B", dfAB)])
          (.list ["wspd", "wdir"]) (.dict []) (.dict []) (.dict []) 1 none)).nfields +
      (⟨1, "B", 1, "wdir", 0, 3⟩ : PlotEntry).fieldIdx :=
  claim_c8.1 (.dict [("A", dfAB), ("B", dfAB)]) (.list ["wspd", "wdir"]) (.dict []) (.dict [])
    (.dict []) 1 none
    (getOk emptyTimeheightResult (plot_timeheight (.dict [("A", dfAB), ("B", dfAB)])
      (.list ["wspd", "wdir"]) (.dict []) (.dict []) (.dict []) 1 none)) rfl
    ⟨1, "B", 1, "wdir", 0, 3⟩ (by decide)

theorem mapExcept_ok_mem {α β : Type} (g : α → Except String β) :
    ∀ l ys, mapExcept g l = .ok ys → ∀ x ∈ l, ∃ y, g x = .ok y := by
  intro l
  induction l with
  | nil => intro ys h x hx; simp at hx
  | cons a as ih =>
    intro ys h x hx
    unfold mapExcept at h
    obtain ⟨y, hy, h⟩ := bind_ok_inv h
    obtain ⟨ys2, hys2, h⟩ := bind_ok_inv h
    rcases List.mem_cons.mp hx with heq | hm
    · subst heq; exact ⟨y, hy⟩
    · exact ih ys2 hys2 x hm

theorem mapExcept_min_ok (f : String) :
    ∀ ds : List (String × DataFrame),
      (∀ p ∈ ds, ∃ vs, colValues p.2 f = some vs ∧ vs ≠ []) →
      mapExcept (fun p => dfFieldMin p.2 f) ds = .ok (pooledMins ds f) ∧
      (pooledMins ds f).length = ds.length := by
  intro ds
  induction ds with
  | nil => intro h; exact ⟨rfl, rfl⟩
  | cons p ps ih =>
    intro h
    obtain ⟨vs, hcv, hne⟩ := h p (List.mem_cons_self _ _)
    obtain ⟨hrec, hlen⟩ := ih (fun q hq => h q (List.mem_cons_of_mem _ hq))
    cases hm : vs.min? with
    | none => exact absurd (List.min?_eq_none_iff.mp hm) hne
    | some lo =>
      have hg : dfFieldMin p.2 f = .ok lo := by
        unfold dfFieldMin
        rw [hcv]
        simp [hm]
      have hpool : pooledMins (p :: ps) f = lo :: pooledMins ps f := by
        unfold pooledMins
        rw [List.filterMap_cons]
        rw [hcv]
        simp [hm, pooledMins]
      constructor
      · unfold mapExcept
        rw [hg, ebind_ok, hrec, ebind_ok, hpool]
      · rw [hpool]
        simp [hlen]

theorem mapExcept_max_ok (f : String) :
    ∀ ds : List (String × DataFrame),
      (∀ p ∈ ds, ∃ vs, colValues p.2 f = some vs ∧ vs ≠ []) →
      mapExcept (fun p => dfFieldMax p.2 f) ds = .ok (pooledMaxs ds f) ∧
      (pooledMaxs ds f).length = ds.length := by
  intro ds
  induction ds with
  | nil => intro h; exact ⟨rfl, rfl⟩
  | cons p ps ih =>
    intro h
    obtain ⟨vs, hcv, hne⟩ := h p (List.mem_cons_self _ _)
    obtain ⟨hrec, hlen⟩ := ih (fun q hq => h q (List.mem_cons_of_mem _ hq))
    cases hm : vs.max? with
    | none => exact absurd (List.max?_eq_none_iff.mp hm) hne
    | some hi =>
      have hg : dfFieldMax p.2 f = .ok hi := by
        unfold dfFieldMax
        rw [hcv]
        simp [hm]
      have hpool : pooledMaxs (p :: ps) f = hi :: pooledMaxs ps f := by
        unfold pooledMaxs
        rw [List.filterMap_cons]
        rw [hcv]
        simp [hm, pooledMaxs]
      constructor
      · unfold mapExcept
        rw [hg, ebind_ok, hrec, ebind_ok, hpool]
      · rw [hpool]
        simp [hlen]

theorem mapExcept_min_err (f : String) :
    ∀ ds : List (String × DataFrame),
      (∃ p ∈ ds, colValues p.2 f = none) →
      ∃ e, mapExcept (fun p => dfFieldMin p.2 f) ds = .error e := by
  intro ds
  induction ds with
  | nil => intro h; simp at h
  | cons q ps ih =>
    intro h
    cases hg : dfFieldMin q.2 f with
    | error e =>
      refine ⟨e, ?_⟩
      unfold mapExcept
      rw [hg, ebind_err]
    | ok y =>
      have hq : colValues q.2 f ≠ none := by
        intro hn
        unfold dfFieldMin at hg
        rw [hn] at hg
        exact absurd hg (by simp)
      obtain ⟨p, hp, hpn⟩ := h
      have hprest : p ∈ ps := by
        rcases List.mem_cons.mp hp with heq | hm
        · subst heq; exact absurd hpn hq
        · exact hm
      obtain ⟨e, he⟩ := ih ⟨p, hprest, hpn⟩
      refine ⟨e, ?_⟩
      unfold mapExcept
      rw [hg, ebind_ok, he, ebind_err]


theorem fillFieldlimits_ok (ds : List (String × DataFrame)) (hds : ds ≠ []) :
    ∀ (fs : List String) (fl : List (String × (Int × Int))),
      (∀ f ∈ fs, fl.any (fun p => p.1 == f) = false →
        ∀ p ∈ ds, ∃ vs, colValues p.2 f = some vs ∧ vs ≠ []) →
      ∃ extra, fillFieldlimits ds fs fl = .ok (fl ++ extra) ∧
        (∀ q ∈ extra, fl.any (fun p => p.1 == q.1) = false ∧
          ∃ lo hi, q.2 = (lo, hi) ∧ (pooledMins ds q.1).min? = some lo ∧
            (pooledMaxs ds q.1).max? = some hi) ∧
        (∀ f ∈ fs, fl.any (fun p => p.1 == f) = false → ∃ q ∈ extra, q.1 = f) := by
  intro fs
  induction fs with
  | nil =>
    intro fl h
    refine ⟨[], by simp [fillFieldlimits], by simp, by simp⟩
  | cons f fs2 ih =>
    intro fl h
    by_cases hf : fl.any (fun p => p.1 == f) = true
    · obtain ⟨extra, h1, h2, h3⟩ := ih fl (fun g hg => h g (List.mem_cons_of_mem _ hg))
      refine ⟨extra, ?_, h2, ?_⟩
      · unfold fillFieldlimits
        rw [if_pos hf]
        exact h1
      · intro g hg hmiss
        rcases List.mem_cons.mp hg with heq | hm
        · subst heq; rw [hf] at hmiss; exact absurd hmiss (by simp)
        · exact h3 g hm hmiss
    · have hf0 : fl.any (fun p => p.1 == f) = false := Bool.eq_false_iff.mpr hf
      have hpres := h f (List.mem_cons_self _ _) hf0
      obtain ⟨hmins, hlmin⟩ := mapExcept_min_ok f ds hpres
      obtain ⟨hmaxs, hlmax⟩ := mapExcept_max_ok f ds hpres
      have hne1 : pooledMins ds f ≠ [] := by
        intro hnil
        rw [hnil] at hlmin
        exact hds (List.length_eq_zero.mp hlmin.symm)
      have hne2 : pooledMaxs ds f ≠ [] := by
        intro hnil
        rw [hnil] at hlmax
        exact hds (List.length_eq_zero.mp hlmax.symm)
      obtain ⟨lo, hlo⟩ : ∃ lo, (pooledMins ds f).min? = some lo := by
        cases hx : (pooledMins ds f).min? with
        | none => exact absurd (List.min?_eq_none_iff.mp hx) hne1
        | some v => exact ⟨v, rfl⟩
      obtain ⟨hi, hhi⟩ : ∃ hi, (pooledMaxs ds f).max? = some hi := by
        cases hx : (pooledMaxs ds f).max? with
        | none => exact absurd (List.max?_eq_none_iff.mp hx) hne2
        | some v => exact ⟨v, rfl⟩
      have hstep : fillFieldlimits ds (f :: fs2) fl =
          fillFieldlimits ds fs2 (fl ++ [(f, (lo, hi))]) := by
        conv_lhs => rw [fillFieldlimits]
        rw [if_neg hf]
        rw [hmins, ebind_ok, hmaxs, ebind_ok, hlo, hhi]
      have hsub : ∀ g ∈ fs2, (fl ++ [(f, (lo, hi))]).any (fun p => p.1 == g) = false →
          ∀ p ∈ ds, ∃ vs, colValues p.2 g = some vs ∧ vs ≠ [] := by
        intro g hg hmiss
        rw [List.any_append] at hmiss
        have := Bool.or_eq_false_iff.mp hmiss
        exact h g (List.mem_cons_of_mem _ hg) this.1
      obtain ⟨extra2, h1, h2, h3⟩ := ih (fl ++ [(f, (lo, hi))]) hsub
      refine ⟨(f, (lo, hi)) :: extra2, ?_, ?_, ?_⟩
      · rw [hstep, h1]
        simp
      · intro q hq
        rcases List.mem_cons.mp hq with heq | hm
        · subst heq
          exact ⟨hf0, lo, hi, rfl, hlo, hhi⟩
        · obtain ⟨hq1, hq2⟩ := h2 q hm
          rw [List.any_append] at hq1
          exact ⟨(Bool.or_eq_false_iff.mp hq1).1, hq2⟩
      · intro g hg hmiss
        rcases List.mem_cons.mp hg with heq | hm
        · exact ⟨(f, (lo, hi)), List.mem_cons_self _ _, heq.symm⟩
        · by_cases hgf : g = f
          · exact ⟨(f, (lo, hi)), List.mem_cons_self _ _, hgf.symm⟩
          · have hfg : (([(f, (lo, hi))] : List (String × (Int × Int))).any fun p => p.1 == g) = false := by
              simp [Ne.symm hgf]
            have : (fl ++ [(f, (lo, hi))]).any (fun p => p.1 == g) = false := by
              rw [List.any_append, hmiss, hfg]
              rfl
            obtain ⟨q, hq, hq1⟩ := h3 g hm this
            exact ⟨q, List.mem_cons_of_mem _ hq, hq1⟩


theorem fillFieldlimits_err (ds : List (String × DataFrame)) :
    ∀ (fs : List String) (fl : List (String × (Int × Int))) (f : String),
      f ∈ fs → fl.any (fun p => p.1 == f) = false →
      (∃ p ∈ ds, colValues p.2 f = none) →
      ∃ e, fillFieldlimits ds fs fl = .error e := by
  intro fs
  induction fs with
  | nil => intro fl f h; simp at h
  | cons g fs2 ih =>
    intro fl f hmem hmiss habs
    by_cases hg : fl.any (fun p => p.1 == g) = true
    · have hfg : f ≠ g := by
        intro hc
        subst hc
        rw [hg] at hmiss
        exact absurd hmiss (by simp)
      have hm2 : f ∈ fs2 := by
        rcases List.mem_cons.mp hmem with heq | hm
        · exact absurd heq hfg
        · exact hm
      obtain ⟨e, he⟩ := ih fl f hm2 hmiss habs
      refine ⟨e, ?_⟩
      conv_lhs => rw [fillFieldlimits]
      rw [if_pos hg]
      exact he
    · cases hmins : mapExcept (fun p => dfFieldMin p.2 g) ds with
      | error e =>
        refine ⟨e, ?_⟩
        conv_lhs => rw [fillFieldlimits]
        rw [if_neg hg, hmins, ebind_err]
      | ok mins =>
        have hfg : f ≠ g := by
          intro hc
          subst hc
          obtain ⟨p, hp, hpn⟩ := habs
          obtain ⟨y, hy⟩ := mapExcept_ok_mem _ ds mins hmins p hp
          unfold dfFieldMin at hy
          rw [hpn] at hy
          exact absurd hy (by simp)
        have hm2 : f ∈ fs2 := by
          rcases List.mem_cons.mp hmem with heq | hm
          · exact absurd heq hfg
          · exact hm
        cases hmaxs : mapExcept (fun p => dfFieldMax p.2 g) ds with
        | error e =>
          refine ⟨e, ?_⟩
          conv_lhs => rw [fillFieldlimits]
          rw [if_neg hg, hmins, ebind_ok, hmaxs, ebind_err]
        | ok maxs =>
          cases hlo : mins.min? with
          | none =>
            refine ⟨"ValueError: min of empty sequence", ?_⟩
            conv_lhs => rw [fillFieldlimits]
            rw [if_neg hg, hmins, ebind_ok, hmaxs, ebind_ok, hlo]
          | some lo =>
            cases hhi : maxs.max? with
            | none =>
              refine ⟨"ValueError: min of empty sequence", ?_⟩
              conv_lhs => rw [fillFieldlimits]
              rw [if_neg hg, hmins, ebind_ok, hmaxs, ebind_ok, hlo, hhi]
            | some hi =>
              have hmiss2 : (fl ++ [(g, (lo, hi))]).any (fun p => p.1 == f) = false := by
                rw [List.any_append, hmiss]
                simp [Ne.symm hfg]
              obtain ⟨e, he⟩ := ih (fl ++ [(g, (lo, hi))]) f hm2 hmiss2 habs
              refine ⟨e, ?_⟩
              conv_lhs => rw [fillFieldlimits]
              rw [if_neg hg, hmins, ebind_ok, hmaxs, ebind_ok, hlo, hhi]
              exact he


theorem hasField_of_colValues (df : DataFrame) (f : String) (vs : List Int)
    (h : colValues df f = some vs) : hasField df f = true := by
  unfold colValues at h
  unfold hasField
  cases hf : df.columns.find? (fun p => p.1 == f) with
  | none => rw [hf] at h; exact absurd h (by simp)
  | some q =>
    have hq := List.mem_of_find?_eq_some hf
    have hpq := List.find?_some hf
    exact List.any_eq_true.mpr ⟨q, hq, hpq⟩

theorem checkDatasets_ok (fields : List String) :
    ∀ l : List (String × DataFrame),
      (∀ p ∈ l, ∃ f ∈ fields, hasField p.2 f = true) →
      checkDatasets fields l = .ok () := by
  intro l
  induction l with
  | nil => intro h; rfl
  | cons q rest ih =>
    obtain ⟨qn, qd⟩ := q
    intro h
    obtain ⟨f, hf, hff⟩ := h (qn, qd) (List.mem_cons_self _ _)
    have hany : fields.any (fun f => hasField qd f) = true :=
      List.any_eq_true.mpr ⟨f, hf, hff⟩
    unfold checkDatasets
    rw [if_pos hany]
    exact ih (fun p hp => h p (List.mem_cons_of_mem _ hp))

theorem check_consistency_eq (a : PlotArgsIn) (flv : List (String × (Int × Int)))
    (flbv : List (String × String)) (csv : Option ColorschemesArg × List (String × String))
    (fov : Option String)
    (h1 : checkDatasets (normFields a.fields) (normDatasets a.datasets) = .ok ())
    (h2 : normFieldlimits (normFields a.fields) a.fieldlimits = .ok flv)
    (h3 : normFieldlabels (normFields a.fields) a.fieldlabels = .ok flbv)
    (h4 : normColorschemes (normFields a.fields) a.colorschemes = .ok csv)
    (h5 : checkFieldorder a.fieldorder = .ok fov) :
    check_consistency a = .ok ⟨normDatasets a.datasets, normFields a.fields,
      a.heights.map normScalarOrList, a.times.map normScalarOrList, flv, flbv,
      csv.1, csv.2, fov⟩ := by
  unfold check_consistency
  simp only [h1, h2, h3, h4, h5, ebind_ok]

theorem set_missing_fieldlimits_eq (r : PlottingInput) (fl2 : List (String × (Int × Int)))
    (h : fillFieldlimits r.datasets r.fields r.fieldlimits = .ok fl2) :
    set_missing_fieldlimits r = .ok { r with fieldlimits := fl2 } := by
  unfold set_missing_fieldlimits
  rw [h, ebind_ok]

theorem plot_timeheight_eq (D : DatasetsArg) (F : FieldsArg) (cs : ColorschemesArg)
    (flim : FieldlimitsArg) (flab : FieldlabelsArg) (nc : Nat) (ax : Option AxShape)
    (args0 argsF : PlottingInput) (g : GridInfo)
    (h1 : check_consistency
      ⟨D, F, none, none, some flim, some flab, some cs, none⟩ = .ok args0)
    (h2 : set_missing_fieldlimits args0 = .ok argsF)
    (h3 : create_subplots_if_needed (argsF.fields.length * argsF.datasets.length)
      (some nc) 1 "C" false ax = .ok g) :
    plot_timeheight D F cs flim flab nc ax = .ok ⟨argsF, argsF.fields.length,
      argsF.datasets.length, argsF.fields.length * argsF.datasets.length, g,
      (timeheightDatasetLoop argsF (rawFieldList F) argsF.datasets.enum).1,
      (timeheightDatasetLoop argsF (rawFieldList F) argsF.datasets.enum).2⟩ := by
  unfold plot_timeheight
  simp only [h1, h2, h3, ebind_ok]

theorem plot_timehistory_eq (D : DatasetsArg) (F : FieldsArg) (H : ScalarOrList)
    (flim : FieldlimitsArg) (flab : FieldlabelsArg) (sbd : Option Bool) (nc : Nat)
    (ax : Option AxShape) (args : PlottingInput) (g : GridInfo)
    (h1 : check_consistency
      ⟨D, F, some H, none, some flim, some flab, none, none⟩ = .ok args)
    (h3 : create_subplots_if_needed
      (if stack_by_datasets_default sbd (args.heights.getD []).length
        then args.fields.length * (args.heights.getD []).length
        else args.fields.length * args.datasets.length)
      (some nc) 1 "C" false ax = .ok g) :
    plot_timehistory_at_height D F H flim flab sbd nc ax = .ok ⟨args,
      stack_by_datasets_default sbd (args.heights.getD []).length,
      args.fields.length, (args.heights.getD []).length, args.datasets.length,
      (if stack_by_datasets_default sbd (args.heights.getD []).length
        then args.fields.length * (args.heights.getD []).length
        else args.fields.length * args.datasets.length), g,
      (timehistoryDatasetLoop args
        (stack_by_datasets_default sbd (args.heights.getD []).length)
        (args.heights.getD []) args.datasets.enum).1,
      (timehistoryDatasetLoop args
        (stack_by_datasets_default sbd (args.heights.getD []).length)
        (args.heights.getD []) args.datasets.enum).2⟩ := by
  unfold plot_timehistory_at_height
  simp only [h1, h3, ebind_ok]

theorem lookupLimit_append_left :
    ∀ (fl extra : List (String × (Int × Int))) (f : String),
      fl.any (fun p => p.1 == f) = true →
      lookupLimit (fl ++ extra) f = lookupLimit fl f := by
  intro fl
  induction fl with
  | nil => intro extra f h; simp at h
  | cons q fl2 ih =>
    intro extra f h
    by_cases hq : (q.1 == f) = true
    · unfold lookupLimit
      simp only [List.cons_append, List.find?, hq]
    · have h2 : fl2.any (fun p => p.1 == f) = true := by
        rw [List.any_cons] at h
        rcases Bool.or_eq_true_iff.mp h with hc | hc
        · exact absurd hc hq
        · exact hc
      have hq1 : (q.1 == f) = false := Bool.eq_false_iff.mpr hq
      unfold lookupLimit at ih ⊢
      simp only [List.cons_append, List.find?, hq1]
      exact ih extra f h2

theorem lookupLimit_append_right :
    ∀ (fl extra : List (String × (Int × Int))) (f : String),
      fl.any (fun p => p.1 == f) = false →
      lookupLimit (fl ++ extra) f = lookupLimit extra f := by
  intro fl
  induction fl with
  | nil => intro extra f h; rfl
  | cons q fl2 ih =>
    intro extra f h
    rw [List.any_cons] at h
    obtain ⟨h1, h2⟩ := Bool.or_eq_false_iff.mp h
    unfold lookupLimit at ih ⊢
    simp only [List.cons_append, List.find?, h1]
    exact ih extra f h2

/-- C1 (amended): the fill-missing-value-ranges step pools each missing
range over ALL datasets, not only those containing the field: when every
requested field lacking a range is present with values in every dataset,
the step fills in exactly the pooled minima and maxima (then equal to
pooling over the containing datasets) and leaves explicit ranges
unchanged; when some dataset lacks such a field, the step raises KeyError
instead of setting the range. -/
theorem claim_c1 (r : PlottingInput) :
    (r.datasets ≠ [] →
     (∀ f ∈ r.fields, r.fieldlimits.any (fun p => p.1 == f) = false →
        ∀ p ∈ r.datasets, ∃ vs, colValues p.2 f = some vs ∧ vs ≠ []) →
     ∃ r2, set_missing_fieldlimits r = .ok r2 ∧
       r2 = { r with fieldlimits := r2.fieldlimits } ∧
       (∀ f, r.fieldlimits.any (fun p => p.1 == f) = true →
          lookupLimit r2.fieldlimits f = lookupLimit r.fieldlimits f) ∧
       (∀ f ∈ r.fields, r.fieldlimits.any (fun p => p.1 == f) = false →
          ∃ lo hi, lookupLimit r2.fieldlimits f = some (lo, hi) ∧
            (pooledMins r.datasets f).min? = some lo ∧
            (pooledMaxs r.datasets f).max? = some hi)) ∧
    (∀ f ∈ r.fields, r.fieldlimits.any (fun p => p.1 == f) = false →
      (∃ p ∈ r.datasets, colValues p.2 f = none) →
      ∃ e, set_missing_fieldlimits r = .error e) := by
  constructor
  · intro hds hpres
    obtain ⟨extra, h1, h2, h3⟩ := fillFieldlimits_ok r.datasets hds r.fields r.fieldlimits hpres
    refine ⟨{ r with fieldlimits := r.fieldlimits ++ extra },
      set_missing_fieldlimits_eq r _ h1, rfl, ?_, ?_⟩
    · intro f hf
      exact lookupLimit_append_left r.fieldlimits extra f hf
    · intro f hf hmiss
      obtain ⟨q, hq, hq1⟩ := h3 f hf hmiss
      have hlk : lookupLimit (r.fieldlimits ++ extra) f = lookupLimit extra f :=
        lookupLimit_append_right r.fieldlimits extra f hmiss
      cases hfind : extra.find? (fun p => p.1 == f) with
      | none =>
        exfalso
        have hall := List.find?_eq_none.mp hfind
        exact absurd (beq_iff_eq.mpr hq1) (hall q hq)
      | some q0 =>
        have hq0mem := List.mem_of_find?_eq_some hfind
        have hq0p := List.find?_some hfind
        have hq0f : q0.1 = f := beq_iff_eq.mp hq0p
        obtain ⟨_, lo, hi, hq2, hlo, hhi⟩ := h2 q0 hq0mem
        refine ⟨lo, hi, ?_, ?_, ?_⟩
        · simp only at hlk ⊢
          rw [hlk]
          unfold lookupLimit
          rw [hfind]
          simp [hq2]
        · rw [← hq0f]; exact hlo
        · rw [← hq0f]; exact hhi
  · intro f hf hmiss habs
    obtain ⟨e, he⟩ := fillFieldlimits_err r.datasets r.fields r.fieldlimits f hf hmiss habs
    refine ⟨e, ?_⟩
    unfold set_missing_fieldlimits
    rw [he, ebind_err]

/-- C1 counterexample: dataset A has wspd, dataset B only wdir, both
validated; the claim asserts that the missing wspd range is pooled over
just A, but the code pools over all datasets and raises KeyError on B,
setting no range at all. -/
theorem claim_c1_counterexample :
    hasField dfA "wspd" = true ∧ hasField dfB "wspd" = false ∧
    (check_consistency ⟨.dict [("A", dfA), ("B", dfB)], .list ["wspd", "wdir"], none, none,
      some (.dict []), some (.dict []), some (.dict []), none⟩).bind set_missing_fieldlimits =
      .error "KeyError: wspd" :=
  ⟨rfl, rfl, rfl⟩


/-- C1 witness: both datasets carry wspd and wdir; the missing wspd range
is filled with the pooled extrema while the explicit wdir range is kept. -/
theorem claim_c1_witness :
    ∃ r2, set_missing_fieldlimits ⟨[("A", dfA), ("B", dfA)], ["wspd", "wdir"], none, none,
        [("wdir", (0, 360))], [], none, [], none⟩ = .ok r2 ∧
      r2 = { (⟨[("A", dfA), ("B", dfA)], ["wspd", "wdir"], none, none,
        [("wdir", (0, 360))], [], none, [], none⟩ : PlottingInput) with
          fieldlimits := r2.fieldlimits } ∧
      (∀ f, (([("wdir", ((0 : Int), (360 : Int)))] : List (String × (Int × Int))).any
          fun p => p.1 == f) = true →
        lookupLimit r2.fieldlimits f = lookupLimit [("wdir", (0, 360))] f) ∧
      (∀ f ∈ ["wspd", "wdir"],
        (([("wdir", ((0 : Int), (360 : Int)))] : List (String × (Int × Int))).any
          fun p => p.1 == f) = false →
        ∃ lo hi, lookupLimit r2.fieldlimits f = some (lo, hi) ∧
          (pooledMins [("A", dfA), ("B", dfA)] f).min? = some lo ∧
          (pooledMaxs [("A", dfA), ("B", dfA)] f).max? = some hi) :=
  (claim_c1 ⟨[("A", dfA), ("B", dfA)], ["wspd", "wdir"], none, none,
    [("wdir", (0, 360))], [], none, [], none⟩).1 (by decide)
    (by
      intro f hf hmiss p hp
      simp only [List.mem_cons, List.not_mem_nil, or_false] at hf hp
      rcases hf with hf | hf
      · subst hf
        rcases hp with hp | hp
        · subst hp; exact ⟨[1], rfl, by decide⟩
        · subst hp; exact ⟨[1], rfl, by decide⟩
      · subst hf
        exact absurd hmiss (by decide))

theorem snd_mem_of_mem_enum {α : Type} (l : List α) (q : Nat × α) (h : q ∈ l.enum) :
    q.2 ∈ l := by
  rw [List.mem_enum_iff_getElem?] at h
  exact List.getElem?_mem h

theorem enum_functional {α : Type} (l : List α) (i : Nat) (x y : α)
    (hx : (i, x) ∈ l.enum) (hy : (i, y) ∈ l.enum) : x = y := by
  rw [List.mk_mem_enum_iff_getElem?] at hx hy
  rw [hx] at hy
  injection hy

theorem timeheightFieldLoop_allskip (nfields i : Nat) (dfname : String) (avail : List String) :
    ∀ l, (∀ q ∈ l, avail.contains q.2 = false) →
      timeheightFieldLoop nfields i dfname avail l =
        ([], l.map (fun q => fieldWarning q.2 dfname)) := by
  intro l
  induction l with
  | nil => intro h; rfl
  | cons q rest ih =>
    obtain ⟨j, f⟩ := q
    intro h
    have hq := h (j, f) (List.mem_cons_self _ _)
    simp only at hq
    unfold timeheightFieldLoop
    rw [hq]
    simp only [Bool.false_eq_true, if_false, List.map_cons]
    rw [ih (fun p hp => h p (List.mem_cons_of_mem _ hp))]

theorem timeheightDatasetLoop_allskip (args : PlottingInput) (raw : List String) :
    ∀ dl, (∀ q ∈ dl, ∀ g ∈ raw, (get_available_fields args q.2.2).contains g = false) →
      (timeheightDatasetLoop args raw dl).1 = [] ∧
      (timeheightDatasetLoop args raw dl).2.length = dl.length * raw.length := by
  intro dl
  induction dl with
  | nil => intro h; exact ⟨rfl, by simp [timeheightDatasetLoop]⟩
  | cons q rest ih =>
    obtain ⟨i0, p0⟩ := q
    intro h
    have hall : ∀ x ∈ raw.enum, (get_available_fields args p0.2).contains x.2 = false := by
      intro x hx
      exact h (i0, p0) (List.mem_cons_self _ _) x.2 (snd_mem_of_mem_enum raw x hx)
    have hskip := timeheightFieldLoop_allskip args.fields.length i0 p0.1
      (get_available_fields args p0.2) raw.enum hall
    obtain ⟨h1, h2⟩ := ih (fun p hp => h p (List.mem_cons_of_mem _ hp))
    constructor
    · simp only [timeheightDatasetLoop, hskip, h1]
      rfl
    · simp only [timeheightDatasetLoop, hskip, List.length_append, List.length_map,
        List.enum_length, h2, List.length_cons]
      ring

/-- C10 (implicit): plot_timeheight iterates the RAW fields argument in
its rendering loop, so a bare fields string of length at least two is
iterated character by character; no character equals the single requested
field, hence every (dataset, character) combination is skipped with a
console warning and the produced figure holds no plotted data, although
the normalized record holds the correct one-element field list. -/
theorem claim_c10 (m : List (String × DataFrame)) (s : String)
    (cs : List (String × String)) (flim : List (String × (Int × Int)))
    (flab : List (String × String))
    (hs : 2 ≤ s.length) (hm : m ≠ [])
    (hcols : ∀ p ∈ m, ∃ vs, colValues p.2 s = some vs ∧ vs ≠ []) :
    ∃ r, plot_timeheight (.dict m) (.str s) (.dict cs) (.dict flim) (.dict flab) 1 none =
        .ok r ∧
      r.args.fields = [s] ∧ r.entries = [] ∧
      r.warnings.length = m.length * s.length := by
  have hck : checkDatasets (normFields (.str s)) (normDatasets (.dict m)) = .ok () := by
    apply checkDatasets_ok
    intro p hp
    obtain ⟨vs, hvs, _⟩ := hcols p hp
    exact ⟨s, List.mem_cons_self _ _, hasField_of_colValues p.2 s vs hvs⟩
  have hcc : check_consistency
      ⟨.dict m, .str s, none, none, some (.dict flim), some (.dict flab), some (.dict cs), none⟩ =
      .ok ⟨m, [s], none, none, flim, flab,
        some (.dict (fillColorschemes [s] cs).1), (fillColorschemes [s] cs).2, none⟩ :=
    check_consistency_eq
      ⟨.dict m, .str s, none, none, some (.dict flim), some (.dict flab), some (.dict cs), none⟩
      flim flab (some (.dict (fillColorschemes [s] cs).1), (fillColorschemes [s] cs).2) none
      hck rfl rfl rfl rfl
  have hfill : ∀ f ∈ ([s] : List String), (flim.any fun p => p.1 == f) = false →
      ∀ p ∈ m, ∃ vs, colValues p.2 f = some vs ∧ vs ≠ [] := by
    intro f hf hmiss p hp
    have hfs : f = s := by
      rcases List.mem_cons.mp hf with h | h
      · exact h
      · simp at h
    subst hfs
    exact hcols p hp
  obtain ⟨extra, hfl, hex2, hex3⟩ := fillFieldlimits_ok m hm [s] flim hfill
  have hsm : set_missing_fieldlimits ⟨m, [s], none, none, flim, flab,
      some (.dict (fillColorschemes [s] cs).1), (fillColorschemes [s] cs).2, none⟩ =
      .ok ⟨m, [s], none, none, flim ++ extra, flab,
        some (.dict (fillColorschemes [s] cs).1), (fillColorschemes [s] cs).2, none⟩ :=
    set_missing_fieldlimits_eq _ _ hfl
  have hgrid : create_subplots_if_needed
      ((([s] : List String).length) * m.length) (some 1) 1 "C" false none =
      .ok ⟨(([s] : List String).length) * m.length, 1, true⟩ := by
    simp [create_subplots_if_needed, Nat.mod_one]
  have hplot := plot_timeheight_eq (.dict m) (.str s) (.dict cs) (.dict flim) (.dict flab)
    1 none _ _ _ hcc hsm hgrid
  have hallskip : ∀ q ∈ m.enum, ∀ g ∈ rawFieldList (.str s),
      (get_available_fields ⟨m, [s], none, none, flim ++ extra, flab,
        some (.dict (fillColorschemes [s] cs).1), (fillColorschemes [s] cs).2, none⟩ q.2.2).contains g = false := by
    intro q hq g hg
    obtain ⟨ch, hch, hgc⟩ := List.mem_map.mp hg
    by_contra hcon
    have hcont : g ∈ get_available_fields ⟨m, [s], none, none, flim ++ extra, flab,
        some (.dict (fillColorschemes [s] cs).1), (fillColorschemes [s] cs).2, none⟩ q.2.2 := by
      have htrue : (get_available_fields ⟨m, [s], none, none, flim ++ extra, flab,
          some (.dict (fillColorschemes [s] cs).1), (fillColorschemes [s] cs).2, none⟩ q.2.2).contains g = true := by
        cases hx : (get_available_fields ⟨m, [s], none, none, flim ++ extra, flab,
            some (.dict (fillColorschemes [s] cs).1), (fillColorschemes [s] cs).2, none⟩ q.2.2).contains g
        · exact absurd hx hcon
        · rfl
      exact List.mem_of_elem_eq_true htrue
    have hgs : g = s := by
      have h2 := (List.mem_filter.mp hcont).1
      rcases List.mem_cons.mp h2 with h | h
      · exact h
      · simp at h
    have hlen : s.length = 1 := by
      rw [← hgs, ← hgc]
      rfl
    omega
  obtain ⟨hE, hW⟩ := timeheightDatasetLoop_allskip _ (rawFieldList (.str s)) (List.enum m) hallskip
  refine ⟨_, hplot, rfl, hE, ?_⟩
  rw [hW]
  simp only [List.enum_length]
  have hraw : (rawFieldList (.str s)).length = s.length := by
    show (s.toList.map String.singleton).length = s.length
    rw [List.length_map]
    rfl
  rw [hraw]


/-- C10 witness: a single dataset holding wspd, called with the bare
string wspd: the call succeeds, the normalized field list is [wspd], no
entry is drawn and one warning per character per dataset is printed. -/
theorem claim_c10_witness :
    2 ≤ "wspd".length ∧
    (∃ r, plot_timeheight (.dict [("A", dfAB)]) (.str "wspd") (.dict []) (.dict [])
        (.dict []) 1 none = .ok r ∧
      r.args.fields = ["wspd"] ∧ r.entries = [] ∧
      r.warnings.length = [("A", dfAB)].length * "wspd".length) :=
  ⟨by decide, claim_c10 [("A", dfAB)] "wspd" [] [] [] (by decide) (by decide)
    (by
      intro p hp
      simp only [List.mem_cons, List.not_mem_nil, or_false] at hp
      subst hp
      exact ⟨[1, 3], rfl, by decide⟩)⟩

theorem timehistoryHeightLoop_mem (stack : Bool) (nfields i : Nat) (dfname : String)
    (j : Nat) (f : String) :
    ∀ l, ∀ e ∈ timehistoryHeightLoop stack nfields i dfname j f l,
      e.dsIdx = i ∧ e.fieldIdx = j ∧ e.field = f ∧
      e.axi = (if stack then e.secIdx * nfields + e.fieldIdx
               else e.dsIdx * nfields + e.fieldIdx) := by
  intro l
  induction l with
  | nil => intro e he; simp [timehistoryHeightLoop] at he
  | cons q rest ih =>
    obtain ⟨k, h0⟩ := q
    intro e he
    simp only [timehistoryHeightLoop] at he
    rcases List.mem_cons.mp he with heq | hmem
    · subst heq
      exact ⟨rfl, rfl, rfl, rfl⟩
    · exact ih e hmem

theorem timehistoryHeightLoop_exists (stack : Bool) (nfields i : Nat) (dfname : String)
    (j : Nat) (f : String) :
    ∀ l k h0, (k, h0) ∈ l →
      ∃ e ∈ timehistoryHeightLoop stack nfields i dfname j f l,
        e.dsIdx = i ∧ e.fieldIdx = j ∧ e.secIdx = k := by
  intro l
  induction l with
  | nil => intro k h0 h; simp at h
  | cons q rest ih =>
    obtain ⟨k0, v0⟩ := q
    intro k h0 hmem
    simp only [timehistoryHeightLoop]
    rcases List.mem_cons.mp hmem with heq | hm
    · obtain ⟨hk, hv⟩ := Prod.mk.injEq .. ▸ heq
      subst hk
      exact ⟨_, List.mem_cons_self _ _, rfl, rfl, rfl⟩
    · obtain ⟨e, he, h1, h2, h3⟩ := ih k h0 hm
      exact ⟨e, List.mem_cons_of_mem _ he, h1, h2, h3⟩

theorem timehistoryFieldLoop_entries (stack : Bool) (nfields i : Nat) (dfname : String)
    (avail : List String) (heights : List Int) :
    ∀ l, ∀ e ∈ (timehistoryFieldLoop stack nfields i dfname avail heights l).1,
      ∃ j f, (j, f) ∈ l ∧ avail.contains f = true ∧
        e ∈ timehistoryHeightLoop stack nfields i dfname j f heights.enum := by
  intro l
  induction l with
  | nil => intro e he; simp [timehistoryFieldLoop] at he
  | cons q rest ih =>
    obtain ⟨j0, f0⟩ := q
    intro e he
    by_cases hc : avail.contains f0 = true
    · simp only [timehistoryFieldLoop, hc, if_true] at he
      rcases List.mem_append.mp he with hm | hm
      · exact ⟨j0, f0, List.mem_cons_self _ _, hc, hm⟩
      · obtain ⟨j, f, h1, h2, h3⟩ := ih e hm
        exact ⟨j, f, List.mem_cons_of_mem _ h1, h2, h3⟩
    · simp only [timehistoryFieldLoop, hc, if_false, Bool.false_eq_true] at he
      obtain ⟨j, f, h1, h2, h3⟩ := ih e he
      exact ⟨j, f, List.mem_cons_of_mem _ h1, h2, h3⟩

theorem timehistoryFieldLoop_exists (stack : Bool) (nfields i : Nat) (dfname : String)
    (avail : List String) (heights : List Int) :
    ∀ l j f, (j, f) ∈ l → avail.contains f = true →
      ∀ k h0, (k, h0) ∈ heights.enum →
      ∃ e ∈ (timehistoryFieldLoop stack nfields i dfname avail heights l).1,
        e.dsIdx = i ∧ e.fieldIdx = j ∧ e.secIdx = k := by
  intro l
  induction l with
  | nil => intro j f h; simp at h
  | cons q rest ih =>
    obtain ⟨j0, f0⟩ := q
    intro j f hmem hc k h0 hk
    rcases List.mem_cons.mp hmem with heq | hm
    · obtain ⟨hj, hf⟩ := Prod.mk.injEq .. ▸ heq
      subst hj; subst hf
      simp only [timehistoryFieldLoop, hc, if_true]
      obtain ⟨e, he, h1, h2, h3⟩ :=
        timehistoryHeightLoop_exists stack nfields i dfname j f heights.enum k h0 hk
      exact ⟨e, List.mem_append.mpr (Or.inl he), h1, h2, h3⟩
    · obtain ⟨e, he, h1, h2, h3⟩ := ih j f hm hc k h0 hk
      by_cases hc0 : avail.contains f0 = true
      · simp only [timehistoryFieldLoop, hc0, if_true]
        exact ⟨e, List.mem_append.mpr (Or.inr he), h1, h2, h3⟩
      · simp only [timehistoryFieldLoop, hc0, if_false, Bool.false_eq_true]
        exact ⟨e, he, h1, h2, h3⟩

theorem timehistoryFieldLoop_warn (stack : Bool) (nfields i : Nat) (dfname : String)
    (avail : List String) (heights : List Int) :
    ∀ l j f, (j, f) ∈ l → avail.contains f = false →
      fieldWarning f dfname ∈ (timehistoryFieldLoop stack nfields i dfname avail heights l).2 := by
  intro l
  induction l with
  | nil => intro j f h; simp at h
  | cons q rest ih =>
    obtain ⟨j0, f0⟩ := q
    intro j f hmem hc
    rcases List.mem_cons.mp hmem with heq | hm
    · obtain ⟨hj, hf⟩ := Prod.mk.injEq .. ▸ heq
      subst hj; subst hf
      simp only [timehistoryFieldLoop, hc, Bool.false_eq_true, if_false]
      exact List.mem_cons_self _ _
    · by_cases hc0 : avail.contains f0 = true
      · simp only [timehistoryFieldLoop, hc0, if_true]
        exact ih j f hm hc
      · simp only [timehistoryFieldLoop, hc0, if_false, Bool.false_eq_true]
        exact List.mem_cons_of_mem _ (ih j f hm hc)

theorem timehistoryDatasetLoop_entries (args : PlottingInput) (stack : Bool)
    (heights : List Int) :
    ∀ dl, ∀ e ∈ (timehistoryDatasetLoop args stack heights dl).1,
      ∃ i p, (i, p) ∈ dl ∧
        e ∈ (timehistoryFieldLoop stack args.fields.length i p.1
          (get_available_fields args p.2) heights args.fields.enum).1 := by
  intro dl
  induction dl with
  | nil => intro e he; simp [timehistoryDatasetLoop] at he
  | cons q rest ih =>
    obtain ⟨i0, p0⟩ := q
    intro e he
    simp only [timehistoryDatasetLoop] at he
    rcases List.mem_append.mp he with h | h
    · exact ⟨i0, p0, List.mem_cons_self _ _, h⟩
    · obtain ⟨i1, p1, hm, hf⟩ := ih e h
      exact ⟨i1, p1, List.mem_cons_of_mem _ hm, hf⟩

theorem timehistoryDatasetLoop_sub (args : PlottingInput) (stack : Bool)
    (heights : List Int) :
    ∀ dl i p, (i, p) ∈ dl →
      (∀ e ∈ (timehistoryFieldLoop stack args.fields.length i p.1
          (get_available_fields args p.2) heights args.fields.enum).1,
        e ∈ (timehistoryDatasetLoop args stack heights dl).1) ∧
      (∀ w ∈ (timehistoryFieldLoop stack args.fields.length i p.1
          (get_available_fields args p.2) heights args.fields.enum).2,
        w ∈ (timehistoryDatasetLoop args stack heights dl).2) := by
  intro dl
  induction dl with
  | nil => intro i p h; simp at h
  | cons q rest ih =>
    obtain ⟨i0, p0⟩ := q
    intro i p hmem
    rcases List.mem_cons.mp hmem with heq | h
    · obtain ⟨hi, hp⟩ := Prod.mk.injEq .. ▸ heq
      subst hi; subst hp
      constructor
      · intro e he
        simp only [timehistoryDatasetLoop]
        exact List.mem_append.mpr (Or.inl he)
      · intro w hw
        simp only [timehistoryDatasetLoop]
        exact List.mem_append.mpr (Or.inl hw)
    · obtain ⟨h1, h2⟩ := ih i p h
      constructor
      · intro e he
        simp only [timehistoryDatasetLoop]
        exact List.mem_append.mpr (Or.inr (h1 e he))
      · intro w hw
        simp only [timehistoryDatasetLoop]
        exact List.mem_append.mpr (Or.inr (h2 w hw))


theorem grid_ncols_one (Z : Nat) :
    create_subplots_if_needed Z (some 1) 1 "C" false none = .ok ⟨Z, 1, true⟩ := by
  simp [create_subplots_if_needed, Nat.mod_one, Nat.div_one]

theorem exists_enum_of_mem {α : Type} (l : List α) (a : α) (h : a ∈ l) :
    ∃ j, (j, a) ∈ l.enum := by
  obtain ⟨j, hj⟩ := List.mem_iff_getElem?.mp h
  exact ⟨j, List.mk_mem_enum_iff_getElem?.mpr hj⟩

theorem contains_false_of_not_hasField (args : PlottingInput) (df : DataFrame) (f : String)
    (h : hasField df f = false) : (get_available_fields args df).contains f = false := by
  cases hx : (get_available_fields args df).contains f with
  | false => rfl
  | true =>
    exfalso
    have hmem := List.mem_of_elem_eq_true hx
    have h2 := (List.mem_filter.mp hmem).2
    rw [h] at h2
    exact absurd h2 (by simp)

theorem contains_true_of_avail (args : PlottingInput) (df : DataFrame) (f : String)
    (hf : f ∈ args.fields) (h : hasField df f = true) :
    (get_available_fields args df).contains f = true :=
  List.elem_eq_true_of_mem (List.mem_filter.mpr ⟨hf, by simp [h]⟩)

/-- C4 (amended): when a requested field is absent from one dataset that
still holds another requested field, the (dataset, field) pair is skipped
with a console warning, no series is drawn for it, and all other
available (dataset, field, secondary) combinations are drawn; this holds
unconditionally for plot_timehistory_at_height, and for plot_timeheight
it additionally requires every requested field lacking an explicit range
to be present with values in every dataset, because the
fill-missing-ranges step otherwise raises KeyError before rendering. -/
theorem claim_c4 :
    (∀ (m : List (String × DataFrame)) (fl : List String) (hts : List Int)
       (flim : List (String × (Int × Int))) (flab : List (String × String))
       (sbd : Option Bool) (i : Nat) (dname : String) (ddf : DataFrame) (f : String),
      (∀ p ∈ m, ∃ g ∈ fl, hasField p.2 g = true) →
      (i, (dname, ddf)) ∈ m.enum →
      f ∈ fl → hasField ddf f = false →
      ∃ r, plot_timehistory_at_height (.dict m) (.list fl) (.list hts)
          (.dict flim) (.dict flab) sbd 1 none = .ok r ∧
        fieldWarning f dname ∈ r.warnings ∧
        (∀ e ∈ r.entries, e.dsIdx = i → e.field ≠ f) ∧
        (∀ i2 p2 j2 f2 k2 h2, (i2, p2) ∈ m.enum → (j2, f2) ∈ fl.enum →
          hasField p2.2 f2 = true → (k2, h2) ∈ hts.enum →
          ∃ e ∈ r.entries, e.dsIdx = i2 ∧ e.fieldIdx = j2 ∧ e.secIdx = k2)) ∧
    (∀ (m : List (String × DataFrame)) (fl : List String)
       (cs : List (String × String)) (flim : List (String × (Int × Int)))
       (flab : List (String × String)) (i : Nat) (dname : String) (ddf : DataFrame)
       (f : String),
      (∀ p ∈ m, ∃ g ∈ fl, hasField p.2 g = true) →
      (∀ g ∈ fl, (flim.any fun p => p.1 == g) = true ∨
        (∀ p ∈ m, ∃ vs, colValues p.2 g = some vs ∧ vs ≠ [])) →
      m ≠ [] →
      (i, (dname, ddf)) ∈ m.enum →
      f ∈ fl → hasField ddf f = false →
      ∃ r, plot_timeheight (.dict m) (.list fl) (.dict cs) (.dict flim) (.dict flab)
          1 none = .ok r ∧
        fieldWarning f dname ∈ r.warnings ∧
        (∀ e ∈ r.entries, e.dsIdx = i → e.field ≠ f) ∧
        (∀ i2 p2 j2 f2, (i2, p2) ∈ m.enum → (j2, f2) ∈ fl.enum →
          hasField p2.2 f2 = true →
          ∃ e ∈ r.entries, e.dsIdx = i2 ∧ e.fieldIdx = j2)) := by
  constructor
  · intro m fl hts flim flab sbd i dname ddf f hval hmem hf hnot
    have hck : checkDatasets (normFields (.list fl)) (normDatasets (.dict m)) = .ok () :=
      checkDatasets_ok fl m hval
    have hcc : check_consistency ⟨.dict m, .list fl, some (.list hts), none,
        some (.dict flim), some (.dict flab), none, none⟩ =
        .ok ⟨m, fl, some hts, none, flim, flab, none, [], none⟩ :=
      check_consistency_eq _ flim flab (none, []) none hck rfl rfl rfl rfl
    have hplot := plot_timehistory_eq (.dict m) (.list fl) (.list hts) (.dict flim)
      (.dict flab) sbd 1 none ⟨m, fl, some hts, none, flim, flab, none, [], none⟩
      _ hcc (grid_ncols_one _)
    set A : PlottingInput := ⟨m, fl, some hts, none, flim, flab, none, [], none⟩ with hA
    set stk := stack_by_datasets_default sbd (A.heights.getD []).length with hstk
    refine ⟨_, hplot, ?_, ?_, ?_⟩
    · obtain ⟨j, hj⟩ := exists_enum_of_mem fl f hf
      have hw := timehistoryFieldLoop_warn stk A.fields.length i dname
        (get_available_fields A ddf) (A.heights.getD []) A.fields.enum j f hj
        (contains_false_of_not_hasField A ddf f hnot)
      exact (timehistoryDatasetLoop_sub A stk (A.heights.getD []) A.datasets.enum
        i (dname, ddf) hmem).2 _ hw
    · intro e he hdsi hef
      obtain ⟨i3, p3, h3enum, hfe⟩ :=
        timehistoryDatasetLoop_entries A stk (A.heights.getD []) A.datasets.enum e he
      obtain ⟨j3, f3, hjf, hcont, hhl⟩ := timehistoryFieldLoop_entries stk A.fields.length
        i3 p3.1 (get_available_fields A p3.2) (A.heights.getD []) A.fields.enum e hfe
      obtain ⟨hd1, hd2, hd3, hd4⟩ := timehistoryHeightLoop_mem stk A.fields.length i3 p3.1
        j3 f3 (A.heights.getD []).enum e hhl
      have hi3 : i3 = i := by rw [← hd1, hdsi]
      subst hi3
      have hp3 : p3 = (dname, ddf) := enum_functional m i3 p3 (dname, ddf) h3enum hmem
      subst hp3
      have hf3 : f3 = f := by rw [← hd3, hef]
      subst hf3
      rw [contains_false_of_not_hasField A ddf f3 hnot] at hcont
      exact absurd hcont (by simp)
    · intro i2 p2 j2 f2 k2 h2 h2enum hjf2 hhf2 hk2
      have hcont : (get_available_fields A p2.2).contains f2 = true :=
        contains_true_of_avail A p2.2 f2 (snd_mem_of_mem_enum fl (j2, f2) hjf2) hhf2
      obtain ⟨e, he, he1, he2, he3⟩ := timehistoryFieldLoop_exists stk A.fields.length
        i2 p2.1 (get_available_fields A p2.2) (A.heights.getD []) A.fields.enum j2 f2
        hjf2 hcont k2 h2 hk2
      exact ⟨e, (timehistoryDatasetLoop_sub A stk (A.heights.getD []) A.datasets.enum
        i2 p2 h2enum).1 e he, he1, he2, he3⟩
  · intro m fl cs flim flab i dname ddf f hval hlim hm hmem hf hnot
    have hck : checkDatasets (normFields (.list fl)) (normDatasets (.dict m)) = .ok () :=
      checkDatasets_ok fl m hval
    have hcc : check_consistency ⟨.dict m, .list fl, none, none,
        some (.dict flim), some (.dict flab), some (.dict cs), none⟩ =
        .ok ⟨m, fl, none, none, flim, flab,
          some (.dict (fillColorschemes fl cs).1), (fillColorschemes fl cs).2, none⟩ :=
      check_consistency_eq _ flim flab
        (some (.dict (fillColorschemes fl cs).1), (fillColorschemes fl cs).2) none
        hck rfl rfl rfl rfl
    have hfill : ∀ g ∈ (fl : List String), (flim.any fun p => p.1 == g) = false →
        ∀ p ∈ m, ∃ vs, colValues p.2 g = some vs ∧ vs ≠ [] := by
      intro g hg hmiss p hp
      rcases hlim g hg with hc | hc
      · rw [hc] at hmiss; exact absurd hmiss (by simp)
      · exact hc p hp
    obtain ⟨extra, hfl2, hex2, hex3⟩ := fillFieldlimits_ok m hm fl flim hfill
    have hsm : set_missing_fieldlimits ⟨m, fl, none, none, flim, flab,
        some (.dict (fillColorschemes fl cs).1), (fillColorschemes fl cs).2, none⟩ =
        .ok ⟨m, fl, none, none, flim ++ extra, flab,
          some (.dict (fillColorschemes fl cs).1), (fillColorschemes fl cs).2, none⟩ :=
      set_missing_fieldlimits_eq _ _ hfl2
    have hplot := plot_timeheight_eq (.dict m) (.list fl) (.dict cs) (.dict flim)
      (.dict flab) 1 none _ _ _ hcc hsm (grid_ncols_one _)
    set A : PlottingInput := ⟨m, fl, none, none, flim ++ extra, flab,
      some (.dict (fillColorschemes fl cs).1), (fillColorschemes fl cs).2, none⟩ with hA
    refine ⟨_, hplot, ?_, ?_, ?_⟩
    · obtain ⟨j, hj⟩ := exists_enum_of_mem fl f hf
      have hw := timeheightFieldLoop_warn A.fields.length i dname
        (get_available_fields A ddf) (rawFieldList (.list fl)).enum j f hj
        (contains_false_of_not_hasField A ddf f hnot)
      exact (timeheightDatasetLoop_sub A (rawFieldList (.list fl)) A.datasets.enum
        i (dname, ddf) hmem).2 _ hw
    · intro e he hdsi hef
      obtain ⟨i3, p3, h3enum, hfe⟩ :=
        timeheightDatasetLoop_entries A (rawFieldList (.list fl)) A.datasets.enum e he
      obtain ⟨hd1, hd2, hcont, hjmem, hd5⟩ := timeheightFieldLoop_axi A.fields.length i3
        p3.1 (get_available_fields A p3.2) (rawFieldList (.list fl)).enum e hfe
      have hi3 : i3 = i := by rw [← hd1, hdsi]
      subst hi3
      have hp3 : p3 = (dname, ddf) := enum_functional m i3 p3 (dname, ddf) h3enum hmem
      subst hp3
      rw [hef] at hcont
      rw [contains_false_of_not_hasField A ddf f hnot] at hcont
      exact absurd hcont (by simp)
    · intro i2 p2 j2 f2 h2enum hjf2 hhf2
      have hcont : (get_available_fields A p2.2).contains f2 = true :=
        contains_true_of_avail A p2.2 f2 (snd_mem_of_mem_enum fl (j2, f2) hjf2) hhf2
      obtain ⟨e, he, he1, he2, he3⟩ := timeheightFieldLoop_exists A.fields.length
        i2 p2.1 (get_available_fields A p2.2) (rawFieldList (.list fl)).enum j2 f2
        hjf2 hcont
      exact ⟨e, (timeheightDatasetLoop_sub A (rawFieldList (.list fl)) A.datasets.enum
        i2 p2 h2enum).1 e he, he1, he2⟩


/-- C4 counterexample: dataset B lacks wspd but holds the other requested
field wdir; the claim says that combination is merely skipped, yet the
time-height call raises KeyError in the fill-missing-ranges step before
any rendering, so nothing is drawn at all. -/
theorem claim_c4_counterexample :
    hasField dfB "wspd" = false ∧ hasField dfB "wdir" = true ∧
    plot_timeheight (.dict [("A", dfA), ("B", dfB)]) (.list ["wspd", "wdir"])
      (.dict []) (.dict []) (.dict []) 1 none = .error "KeyError: wspd" :=
  ⟨rfl, rfl, rfl⟩

/-- C4 witness: the time-history call with dataset B lacking wspd warns
for (B, wspd), draws no such series, and draws every available
combination. -/
theorem claim_c4_witness :
    ∃ r, plot_timehistory_at_height (.dict [("A", dfAB), ("B", dfB)])
        (.list ["wspd", "wdir"]) (.list [10]) (.dict []) (.dict []) none 1 none = .ok r ∧
      fieldWarning "wspd" "B" ∈ r.warnings ∧
      (∀ e ∈ r.entries, e.dsIdx = 1 → e.field ≠ "wspd") ∧
      (∀ i2 p2 j2 f2 k2 h2, (i2, p2) ∈ ([("A", dfAB), ("B", dfB)] : List (String × DataFrame)).enum →
        (j2, f2) ∈ (["wspd", "wdir"] : List String).enum → hasField p2.2 f2 = true →
        (k2, h2) ∈ ([(10 : Int)] : List Int).enum →
        ∃ e ∈ r.entries, e.dsIdx = i2 ∧ e.fieldIdx = j2 ∧ e.secIdx = k2) :=
  claim_c4.1 [("A", dfAB), ("B", dfB)] ["wspd", "wdir"] [10] [] [] none 1 "B" dfB "wspd"
    (by
      intro p hp
      simp only [List.mem_cons, List.not_mem_nil, or_false] at hp
      rcases hp with hp | hp
      · subst hp; exact ⟨"wspd", by decide, rfl⟩
      · subst hp; exact ⟨"wdir", by decide, rfl⟩)
    (by decide) (by decide) rfl

theorem profileTimeLoop_axi (stack : Bool) (fo : Option String)
    (nfields ntimes ndatasets i : Nat) (dfname : String) (dftimes : List Int)
    (j : Nat) (f : String) :
    ∀ l es, profileTimeLoop stack fo nfields ntimes ndatasets i dfname dftimes j f l = .ok es →
      ∀ e ∈ es, e.dsIdx = i ∧ e.fieldIdx = j ∧
        e.axi = (if stack then
            (if fo == some "C" then e.fieldIdx * ntimes + e.secIdx
             else e.secIdx * nfields + e.fieldIdx)
          else
            (if fo == some "C" then e.fieldIdx * ndatasets + e.dsIdx
             else e.dsIdx * nfields + e.fieldIdx)) := by
  intro l
  induction l with
  | nil =>
    intro es h e he
    simp only [profileTimeLoop, Except.ok.injEq] at h
    subst h
    simp at he
  | cons q rest ih =>
    obtain ⟨k, t⟩ := q
    intro es h e he
    by_cases hc : dftimes.contains t = true
    · simp only [profileTimeLoop, hc, if_true] at h
      obtain ⟨es2, hrec, h⟩ := bind_ok_inv h
      simp only [pure, Except.pure, Except.ok.injEq] at h
      subst h
      rcases List.mem_cons.mp he with heq | hm
      · subst heq
        exact ⟨rfl, rfl, rfl⟩
      · exact ih es2 hrec e hm
    · simp only [profileTimeLoop, hc, Bool.false_eq_true, if_false] at h
      exact absurd h (by simp)

theorem profileFieldLoop_axi (stack : Bool) (fo : Option String)
    (nfields ntimes ndatasets i : Nat) (dfname : String) (dftimes : List Int)
    (avail : List String) (times : List Int) :
    ∀ l r, profileFieldLoop stack fo nfields ntimes ndatasets i dfname dftimes avail times l = .ok r →
      ∀ e ∈ r.1, e.dsIdx = i ∧
        e.axi = (if stack then
            (if fo == some "C" then e.fieldIdx * ntimes + e.secIdx
             else e.secIdx * nfields + e.fieldIdx)
          else
            (if fo == some "C" then e.fieldIdx * ndatasets + e.dsIdx
             else e.dsIdx * nfields + e.fieldIdx)) := by
  intro l
  induction l with
  | nil =>
    intro r h e he
    simp only [profileFieldLoop, Except.ok.injEq] at h
    subst h
    simp at he
  | cons q rest ih =>
    obtain ⟨j0, f0⟩ := q
    intro r h e he
    by_cases hc : avail.contains f0 = true
    · simp only [profileFieldLoop, hc, if_true] at h
      obtain ⟨es, hes, h⟩ := bind_ok_inv h
      obtain ⟨r2, hr2, h⟩ := bind_ok_inv h
      simp only [pure, Except.pure, Except.ok.injEq] at h
      subst h
      simp only [List.mem_append] at he
      rcases he with hm | hm
      · obtain ⟨h1, h2, h3⟩ := profileTimeLoop_axi stack fo nfields ntimes ndatasets i
          dfname dftimes j0 f0 times.enum es hes e hm
        exact ⟨h1, h3⟩
      · exact ih r2 hr2 e hm
    · simp only [profileFieldLoop, hc, Bool.false_eq_true, if_false] at h
      obtain ⟨r2, hr2, h⟩ := bind_ok_inv h
      simp only [pure, Except.pure, Except.ok.injEq] at h
      subst h
      exact ih r2 hr2 e he

theorem profileDatasetLoop_axi (args : PlottingInput) (stack : Bool) (times : List Int) :
    ∀ dl r, profileDatasetLoop args stack times dl = .ok r →
      ∀ e ∈ r.1,
        e.axi = (if stack then
            (if args.fieldorder == some "C" then e.fieldIdx * times.length + e.secIdx
             else e.secIdx * args.fields.length + e.fieldIdx)
          else
            (if args.fieldorder == some "C" then e.fieldIdx * args.datasets.length + e.dsIdx
             else e.dsIdx * args.fields.length + e.fieldIdx)) := by
  intro dl
  induction dl with
  | nil =>
    intro r h e he
    simp only [profileDatasetLoop, Except.ok.injEq] at h
    subst h
    simp at he
  | cons q rest ih =>
    obtain ⟨i0, p0⟩ := q
    intro r h e he
    simp only [profileDatasetLoop] at h
    obtain ⟨x, hx, h⟩ := bind_ok_inv h
    obtain ⟨y, hy, h⟩ := bind_ok_inv h
    simp only [pure, Except.pure, Except.ok.injEq] at h
    subst h
    simp only [List.mem_append] at he
    rcases he with hm | hm
    · obtain ⟨h1, h2⟩ := profileFieldLoop_axi stack args.fieldorder args.fields.length
        times.length args.datasets.length i0 p0.1 p0.2.times
        (get_available_fields args p0.2) times args.fields.enum x hx e hm
      exact h2
    · exact ih y hy e hm

/-- C7: the flattened subplot index of every drawn combination: the
time-history plot uses axi = k * nfields + j when stacking by datasets
and axi = i * nfields + j when stacking by heights; the profile plot uses
axi = j * nsecondary + k (stack by datasets) or axi = j * ndatasets + i
(stack by times) under row-major field order C, and axi = k * nfields + j
resp. axi = i * nfields + j under column-major order F. -/
theorem claim_c7 :
    (∀ d f h fl fb sbd ncols ax r,
      plot_timehistory_at_height d f h fl fb sbd ncols ax = .ok r →
        ∀ e ∈ r.entries,
          e.axi = if r.stackByDatasets then e.secIdx * r.nfields + e.fieldIdx
                  else e.dsIdx * r.nfields + e.fieldIdx) ∧
    (∀ d f t fl fb sbd fo ncols ax r,
      plot_profile d f t fl fb sbd fo ncols ax = .ok r →
        ∀ e ∈ r.entries,
          e.axi = if r.stackByDatasets then
              (if r.args.fieldorder == some "C" then e.fieldIdx * r.ntimes + e.secIdx
               else e.secIdx * r.nfields + e.fieldIdx)
            else
              (if r.args.fieldorder == some "C" then e.fieldIdx * r.ndatasets + e.dsIdx
               else e.dsIdx * r.nfields + e.fieldIdx)) := by
  constructor
  · intro d f h fl fb sbd ncols ax r hok
    unfold plot_timehistory_at_height at hok
    obtain ⟨args, hcc, hok⟩ := bind_ok_inv hok
    obtain ⟨grid, hgr, hok⟩ := bind_ok_inv hok
    simp only [pure, Except.pure, Except.ok.injEq] at hok
    subst hok
    intro e he
    simp only at he ⊢
    obtain ⟨i, p, hmem, hfe⟩ := timehistoryDatasetLoop_entries args
      (stack_by_datasets_default sbd (args.heights.getD []).length)
      (args.heights.getD []) args.datasets.enum e he
    obtain ⟨j3, f3, hjf, hcont, hhl⟩ := timehistoryFieldLoop_entries
      (stack_by_datasets_default sbd (args.heights.getD []).length) args.fields.length
      i p.1 (get_available_fields args p.2) (args.heights.getD []) args.fields.enum e hfe
    obtain ⟨h1, h2, h3, h4⟩ := timehistoryHeightLoop_mem
      (stack_by_datasets_default sbd (args.heights.getD []).length) args.fields.length
      i p.1 j3 f3 (args.heights.getD []).enum e hhl
    exact h4
  · intro d f t fl fb sbd fo ncols ax r hok
    unfold plot_profile at hok
    obtain ⟨args, hcc, hok⟩ := bind_ok_inv hok
    by_cases hn : args.fields.length = 0
    · rw [if_pos hn] at hok
      exact absurd hok (by simp)
    · rw [if_neg hn] at hok
      obtain ⟨grid, hgr, hok⟩ := bind_ok_inv hok
      obtain ⟨lp, hlp, hok⟩ := bind_ok_inv hok
      simp only [pure, Except.pure, Except.ok.injEq] at hok
      subst hok
      intro e he
      simp only at he ⊢
      exact profileDatasetLoop_axi args
        (stack_by_datasets_default sbd (args.times.getD []).length)
        (args.times.getD []) args.datasets.enum lp hlp e he


/-- C7 witness: the index law applied to a concrete time-history run
(entry of dataset B, field wdir) and a concrete profile run (entry of
field wspd at the second time). -/
theorem claim_c7_witness :
    ((⟨1, "B", 1, "wdir", 0, 1⟩ : PlotEntry).axi =
      if (getOk emptyTimehistoryResult (plot_timehistory_at_height
            (.dict [("A", dfAB), ("B", dfB)]) (.list ["wspd", "wdir"]) (.list [10])
            (.dict []) (.dict []) none 1 none)).stackByDatasets then
        (⟨1, "B", 1, "wdir", 0, 1⟩ : PlotEntry).secIdx *
          (getOk emptyTimehistoryResult (plot_timehistory_at_height
            (.dict [("A", dfAB), ("B", dfB)]) (.list ["wspd", "wdir"]) (.list [10])
            (.dict []) (.dict []) none 1 none)).nfields +
          (⟨1, "B", 1, "wdir", 0, 1⟩ : PlotEntry).fieldIdx
      else
        (⟨1, "B", 1, "wdir", 0, 1⟩ : PlotEntry).dsIdx *
          (getOk emptyTimehistoryResult (plot_timehistory_at_height
            (.dict [("A", dfAB), ("B", dfB)]) (.list ["wspd", "wdir"]) (.list [10])
            (.dict []) (.dict []) none 1 none)).nfields +
          (⟨1, "B", 1, "wdir", 0, 1⟩ : PlotEntry).fieldIdx) ∧
    ((⟨0, "A", 0, "wspd", 1, 0⟩ : PlotEntry).axi =
      if (getOk emptyProfileResult (plot_profile (.dict [("A", dfAB)]) (.list ["wspd"])
            (.list [0, 1]) (.dict []) (.dict []) none "C" none none)).stackByDatasets then
        (if (getOk emptyProfileResult (plot_profile (.dict [("A", dfAB)]) (.list ["wspd"])
              (.list [0, 1]) (.dict []) (.dict []) none "C" none none)).args.fieldorder ==
            some "C" then
          (⟨0, "A", 0, "wspd", 1, 0⟩ : PlotEntry).fieldIdx *
            (getOk emptyProfileResult (plot_profile (.dict [("A", dfAB)]) (.list ["wspd"])
              (.list [0, 1]) (.dict []) (.dict []) none "C" none none)).ntimes +
            (⟨0, "A", 0, "wspd", 1, 0⟩ : PlotEntry).secIdx
        else
          (⟨0, "A", 0, "wspd", 1, 0⟩ : PlotEntry).secIdx *
            (getOk emptyProfileResult (plot_profile (.dict [("A", dfAB)]) (.list ["wspd"])
              (.list [0, 1]) (.dict []) (.dict []) none "C" none none)).nfields +
            (⟨0, "A", 0, "wspd", 1, 0⟩ : PlotEntry).fieldIdx)
      else
        (if (getOk emptyProfileResult (plot_profile (.dict [("A", dfAB)]) (.list ["wspd"])
              (.list [0, 1]) (.dict []) (.dict []) none "C" none none)).args.fieldorder ==
            some "C" then
          (⟨0, "A", 0, "wspd", 1, 0⟩ : PlotEntry).fieldIdx *
            (getOk emptyProfileResult (plot_profile (.dict [("A", dfAB)]) (.list ["wspd"])
              (.list [0, 1]) (.dict []) (.dict []) none "C" none none)).ndatasets +
            (⟨0, "A", 0, "wspd", 1, 0⟩ : PlotEntry).dsIdx
        else
          (⟨0, "A", 0, "wspd", 1, 0⟩ : PlotEntry).dsIdx *
            (getOk emptyProfileResult (plot_profile (.dict [("A", dfAB)]) (.list ["wspd"])
              (.list [0, 1]) (.dict []) (.dict []) none "C" none none)).nfields +
            (⟨0, "A", 0, "wspd", 1, 0⟩ : PlotEntry).fieldIdx)) :=
  ⟨claim_c7.1 (.dict [("A", dfAB), ("B", dfB)]) (.list ["wspd", "wdir"]) (.list [10])
      (.dict []) (.dict []) none 1 none
      (getOk emptyTimehistoryResult (plot_timehistory_at_height
        (.dict [("A", dfAB), ("B", dfB)]) (.list ["wspd", "wdir"]) (.list [10])
        (.dict []) (.dict []) none 1 none)) rfl ⟨1, "B", 1, "wdir", 0, 1⟩ (by decide),
   claim_c7.2 (.dict [("A", dfAB)]) (.list ["wspd"]) (.list [0, 1]) (.dict []) (.dict [])
      none "C" none none
      (getOk emptyProfileResult (plot_profile (.dict [("A", dfAB)]) (.list ["wspd"])
        (.list [0, 1]) (.dict []) (.dict []) none "C" none none)) rfl
      ⟨0, "A", 0, "wspd", 1, 0⟩ (by decide)⟩

/-- C5 (amended): every scalar shorthand (bare table, bare field string,
scalar height, scalar time, bare per-field limit and label with exactly
one selected field) normalizes to a record identical to the equivalent
explicit form; the bare colormap shorthand yields the same record except
that the colorschemes attribute itself keeps the bare string instead of
being expanded to a one-entry mapping, while the resolved cmap mapping is
identical; a bare per-field attribute with more than one selected field
is an input error. -/
theorem claim_c5 :
    (∀ df F H T FL FB CS FO,
      check_consistency ⟨.single df, F, H, T, FL, FB, CS, FO⟩ =
      check_consistency ⟨.dict [("Dataset", df)], F, H, T, FL, FB, CS, FO⟩) ∧
    (∀ D s H T FL FB CS FO,
      check_consistency ⟨D, .str s, H, T, FL, FB, CS, FO⟩ =
      check_consistency ⟨D, .list [s], H, T, FL, FB, CS, FO⟩) ∧
    (∀ D F x T FL FB CS FO,
      check_consistency ⟨D, F, some (.scalar x), T, FL, FB, CS, FO⟩ =
      check_consistency ⟨D, F, some (.list [x]), T, FL, FB, CS, FO⟩) ∧
    (∀ D F H x FL FB CS FO,
      check_consistency ⟨D, F, H, some (.scalar x), FL, FB, CS, FO⟩ =
      check_consistency ⟨D, F, H, some (.list [x]), FL, FB, CS, FO⟩) ∧
    (∀ D f H T lim FB CS FO,
      check_consistency ⟨D, .list [f], H, T, some (.bare lim), FB, CS, FO⟩ =
      check_consistency ⟨D, .list [f], H, T, some (.dict [(f, lim)]), FB, CS, FO⟩) ∧
    (∀ D f H T FL lab CS FO,
      check_consistency ⟨D, .list [f], H, T, FL, some (.bare lab), CS, FO⟩ =
      check_consistency ⟨D, .list [f], H, T, FL, some (.dict [(f, lab)]), CS, FO⟩) ∧
    (∀ D f H T FL FB s FO,
      Except.map (fun r => { r with colorschemes := none })
        (check_consistency ⟨D, .list [f], H, T, FL, FB, some (.bare s), FO⟩) =
      Except.map (fun r => { r with colorschemes := none })
        (check_consistency ⟨D, .list [f], H, T, FL, FB, some (.dict [(f, s)]), FO⟩)) ∧
    (∀ D f1 f2 fs H T lim FB CS FO,
      checkDatasets (f1 :: f2 :: fs) (normDatasets D) = .ok () →
      check_consistency ⟨D, .list (f1 :: f2 :: fs), H, T, some (.bare lim), FB, CS, FO⟩ =
        .error "Unclear to what field fieldlimits corresponds") ∧
    (∀ D f1 f2 fs H T FL lab CS FO flv,
      checkDatasets (f1 :: f2 :: fs) (normDatasets D) = .ok () →
      normFieldlimits (f1 :: f2 :: fs) FL = .ok flv →
      check_consistency ⟨D, .list (f1 :: f2 :: fs), H, T, FL, some (.bare lab), CS, FO⟩ =
        .error "Unclear to what field fieldlabels corresponds") ∧
    (∀ D f1 f2 fs H T FL FB s FO flv flbv,
      checkDatasets (f1 :: f2 :: fs) (normDatasets D) = .ok () →
      normFieldlimits (f1 :: f2 :: fs) FL = .ok flv →
      normFieldlabels (f1 :: f2 :: fs) FB = .ok flbv →
      check_consistency ⟨D, .list (f1 :: f2 :: fs), H, T, FL, FB, some (.bare s), FO⟩ =
        .error "Unclear to what field colorschemes corresponds") := by
  refine ⟨?_, ?_, ?_, ?_, ?_, ?_, ?_, ?_, ?_, ?_⟩
  · intro df F H T FL FB CS FO
    rfl
  · intro D s H T FL FB CS FO
    rfl
  · intro D F x T FL FB CS FO
    rfl
  · intro D F H x FL FB CS FO
    rfl
  · intro D f H T lim FB CS FO
    rfl
  · intro D f H T FL lab CS FO
    rfl
  · intro D f H T FL FB s FO
    simp only [check_consistency, normFields]
    cases hD : checkDatasets [f] (normDatasets D) with
    | error e => simp [hD, ebind_err, Except.map]
    | ok u =>
      cases u
      obtain ⟨flv, hFL⟩ : ∃ flv, normFieldlimits [f] FL = .ok flv := by
        cases FL with
        | none => exact ⟨[], rfl⟩
        | some fla =>
          cases fla with
          | bare lim => exact ⟨[(f, lim)], rfl⟩
          | dict mm => exact ⟨mm, rfl⟩
      obtain ⟨flbv, hFB⟩ : ∃ flbv, normFieldlabels [f] FB = .ok flbv := by
        cases FB with
        | none => exact ⟨[], rfl⟩
        | some flb =>
          cases flb with
          | bare lab => exact ⟨[(f, lab)], rfl⟩
          | dict mm => exact ⟨mm, rfl⟩
      cases hFO : checkFieldorder FO with
      | error e2 =>
        simp [hD, hFL, hFB, hFO, ebind_ok, ebind_err, Except.map, normColorschemes,
          fillColorschemes, List.any_cons, List.find?]
      | ok fov =>
        simp [hD, hFL, hFB, hFO, ebind_ok, Except.map, normColorschemes,
          fillColorschemes, List.any_cons, List.find?]
  · intro D f1 f2 fs H T lim FB CS FO hD
    simp only [check_consistency, normFields]
    simp [hD, ebind_ok, normFieldlimits, ebind_err]
  · intro D f1 f2 fs H T FL lab CS FO flv hD hFL
    simp only [check_consistency, normFields]
    simp [hD, hFL, ebind_ok, normFieldlabels, ebind_err]
  · intro D f1 f2 fs H T FL FB s FO flv flbv hD hFL hFB
    simp only [check_consistency, normFields]
    simp [hD, hFL, hFB, ebind_ok, normColorschemes, ebind_err]


/-- C5 counterexample: the bare colormap shorthand with one field does
NOT produce the same canonical record as the equivalent explicit mapping:
the colorschemes attribute stays the bare string on one side and is a
one-entry mapping on the other, so the records differ. -/
theorem claim_c5_counterexample :
    check_consistency ⟨.dict [("A", dfA)], .list ["wspd"], none, none, none, none,
      some (.bare "jet"), none⟩ ≠
    check_consistency ⟨.dict [("A", dfA)], .list ["wspd"], none, none, none, none,
      some (.dict [("wspd", "jet")]), none⟩ := by
  intro h
  have h2 := congrArg (fun e => match e with
    | Except.ok r => r.colorschemes
    | Except.error _ => none) h
  have h3 : ¬ (some (ColorschemesArg.bare "jet") =
      some (ColorschemesArg.dict [("wspd", "jet")])) := by decide
  exact h3 h2

/-- C5 witness: the bare-table and bare-string shorthands at a concrete
input, and the bare fieldlimits shorthand failing with two selected
fields. -/
theorem claim_c5_witness :
    (check_consistency ⟨.single dfA, .list ["wspd"], none, none, none, none, none, none⟩ =
     check_consistency ⟨.dict [("Dataset", dfA)], .list ["wspd"], none, none, none, none,
       none, none⟩) ∧
    checkDatasets ["wspd", "wdir"] (normDatasets (.dict [("A", dfA)])) = .ok () ∧
    check_consistency ⟨.dict [("A", dfA)], .list ["wspd", "wdir"], none, none,
      some (.bare (0, 10)), none, none, none⟩ =
      .error "Unclear to what field fieldlimits corresponds" :=
  ⟨claim_c5.1 dfA (.list ["wspd"]) none none none none none none,
   rfl,
   claim_c5.2.2.2.2.2.2.2.1 (.dict [("A", dfA)]) "wspd" "wdir" [] none none (0, 10)
     none none none rfl⟩
